import Mathlib

/-!
# Verification of the udpPacketManager multi-port packet reader

A shallow embedding, in Lean 4, of the reader core found in
`lofar_udp_reader.c` (two revisions of the file are present in the sources;
they agree on every function treated here, and the later revision is taken
as the authority).  Machine integers (`long` / `int`) are modelled as `ℤ`;
the C code under scrutiny performs no wrap-around arithmetic on the paths
modelled here.  Per-port arrays are modelled as functions `ℕ → α`, byte
buffers as functions `ℤ → ℤ` from a (possibly negative) logical byte offset
to the byte stored there, mirroring the pointer arithmetic of the source:
the per-port data pointer sits two packet lengths inside its allocation, so
negative offsets address the guard region.

`while` loops are given an explicit fuel parameter; `none` means "fuel
exhausted", and theorems quantify over the fuel.  The OpenMP-parallel
per-port loops are modelled as sequential left-to-right loops over the port
list; on the properties proved here (which either quantify over a single
port, or hypothesise that no short read occurs) the parallel schedule is
observationally equivalent to the sequential one.
-/

namespace UdpPM

/-! ## Constants

`UDPHDRLEN`, `UDPNTIMESLICE`, `UDPNPOL`, `MAX_NUM_PORTS`, `LFREPOCH`,
`RSPMAXSEQ`, `UDPMAXBEAM`, `UDPCURVER` and the clock step counts are defined
in headers (`lofar_udp_misc.h` / `lofar_udp_structs.h`) that are not among
the provided sources; their values are modelled from the spec (16-byte
header, 16 timeslices per packet, 4 polarisation components, up to 4 ports,
LOFAR epoch 2008, 200/160 MHz clock rates).  No claim below depends on the
particular numeric value of any of them. -/

def UDPHDRLEN : ℤ := 16

def UDPNTIMESLICE : ℤ := 16

def UDPNPOL : ℤ := 4

def MAX_NUM_PORTS : ℤ := 4

def LFREPOCH : ℤ := 1199145600

def RSPMAXSEQ : ℤ := 195313

def UDPMAXBEAM : ℤ := 244

def UDPCURVER : ℤ := 3

def LONG_MAX : ℤ := 9223372036854775807

def clock200MHzSteps : ℤ := 195312500

def clock160MHzSteps : ℤ := 156250000

/-! ## Byte buffers and the packet number -/

/-- A per-port byte buffer: the byte stored at a logical byte offset.
Offsets `-2·portPacketLength .. 0` address the guard region. -/
def Buffer : Type := ℤ → ℤ

/-- Pointwise update of a per-port table. -/
def upd {α : Type} (f : ℕ → α) (p : ℕ) (v : α) : ℕ → α :=
  fun q => if q = p then v else f q

/-- Little-endian 32-bit read, as done by the `*(unsigned int *)` casts in
the source. -/
def le32 (buf : Buffer) (off : ℤ) : ℤ :=
  buf off + 256 * buf (off + 1) + 65536 * buf (off + 2) +
    16777216 * buf (off + 3)

/-- Modelled from the spec: `lofar_get_packet_number` lives in
`lofar_udp_misc.c`, which is not among the provided sources.  The spec
defines the packet number as the monotonic logical index
`(seconds · clockRate + sequence) / timeslicesPerPacket`, computed from the
little-endian timestamp (header bytes 8..11), the little-endian sequence
counter (header bytes 12..15) and the clock bit of the packed source field
(here taken as the top bit of header byte 1; no claim depends on the bit
position). -/
def lofar_get_packet_number (buf : Buffer) (off : ℤ) : ℤ :=
  let seconds := le32 buf (off + 8)
  let sequence := le32 buf (off + 12)
  let clockBit := ((buf (off + 1)).tdiv 128) % 2
  let clockSteps := if clockBit = 1 then clock200MHzSteps else clock160MHzSteps
  (seconds * clockSteps + sequence).tdiv UDPNTIMESLICE

/-- `memmove(&buf[dst], &buf[src], len)` on a logical byte buffer. -/
def memmoveBuf (buf : Buffer) (dst src len : ℤ) : Buffer :=
  fun i => if dst ≤ i ∧ i < dst + len then buf (src + (i - dst)) else buf i

/-- `for (i = 0; i < len; i++) buf[lo + i] = 0;` on a logical byte buffer. -/
def zeroRegion (buf : Buffer) (lo len : ℤ) : Buffer :=
  fun i => if lo ≤ i ∧ i < lo + len then 0 else buf i

/-! ## Session state

`UdpMeta` collects the fields of `lofar_udp_meta` used by the functions
under study, `InputStreams` the transport state of `lofar_udp_reader_input`
(per-port input modelled as a byte stream with a cursor, which is how both
the raw-file and the decompressed-stream transports behave at this
interface), and `UdpReader` the `lofar_udp_reader` wrapper. -/

structure UdpMeta where
  numPorts : ℕ
  portPacketLength : ℕ → ℤ
  packetsPerIteration : ℤ
  packetsRead : ℤ
  packetsReadMax : ℤ
  lastPacket : ℤ
  leadingPacket : ℤ
  portLastDroppedPackets : ℕ → ℤ
  portTotalDroppedPackets : ℕ → ℤ
  inputDataOffset : ℕ → ℤ
  inputData : ℕ → Buffer
  replayDroppedPackets : Bool
  calibrateData : Bool
  calibrationStep : ℤ
  inputDataReady : ℤ
  outputDataReady : ℤ

structure InputStreams where
  streamData : ℕ → ℤ → ℤ
  streamPos : ℕ → ℤ
  streamLen : ℕ → ℤ
  isZstd : Bool
  decompressionPos : ℕ → ℤ

structure UdpReader where
  meta : UdpMeta
  packetsPerIteration : ℤ
  input : InputStreams
  calibrationStepsGenerated : ℤ

/-- Modelled from the spec: `lofar_udp_io_read` / `lofar_udp_reader_nchars`
live in `lofar_udp_io.c`, which is not among the provided sources.  The spec
contract: `readExact(n)` reads up to `n` bytes into the destination offset
and returns the short count when the input is exhausted.  The destination is
always `&inputData[port][destOff]` at the call sites modelled here. -/
def lofar_udp_io_read (r : UdpReader) (port : ℕ) (destOff nchars : ℤ) :
    ℤ × UdpReader :=
  let avail := r.input.streamLen port - r.input.streamPos port
  let got := max 0 (min nchars avail)
  let newBuf : Buffer := fun i =>
    if destOff ≤ i ∧ i < destOff + got then
      r.input.streamData port (r.input.streamPos port + (i - destOff))
    else r.meta.inputData port i
  (got,
    { r with
      meta := { r.meta with inputData := upd r.meta.inputData port newBuf },
      input := { r.input with
                 streamPos := upd r.input.streamPos port
                   (r.input.streamPos port + got) } })

/-! ## `lofar_udp_shift_remainder_packets`

The shift protocol.  First loop: reset every `inputDataOffset`, accumulate
the total requested shift, and detect a pending decompression overshoot
(`fixBuffer`).  Early return when there is no work.  Second loop: per port,
clamp the shift to the configured `packetsPerIteration`, treat a negative
shift as a warning, move the tail packets (plus the padding packet when
`handlePadding == 1`) to the head, and zero the `-2·portPacketLength` guard
packet when replay-on-loss is disabled. -/

def shiftRemPre (shift : ℕ → ℤ) :
    List ℕ → UdpReader → ℤ → Bool → ℤ × Bool × UdpReader
  | [], r, total, fix => (total, fix, r)
  | p :: rest, r, total, fix =>
    let r' := { r with
      meta := { r.meta with inputDataOffset := upd r.meta.inputDataOffset p 0 } }
    let fix' := fix ||
      (r.input.isZstd &&
        decide (r.input.decompressionPos p >
          r.meta.portPacketLength p * r.meta.packetsPerIteration))
    shiftRemPre shift rest r' (total + shift p) fix'

/-- The memory move of the shift protocol followed by the conditional
guard-packet zeroing, as performed on one port's buffer when its shift block
executes: move `byteShift` bytes from `(packetsPerIteration - packetShift -
handlePadding)·portPacketLength` to `-handlePadding·portPacketLength`, then
zero the packet at `-2·portPacketLength` when replay-on-loss is disabled. -/
def shiftPortNewBuffer (buf : Buffer) (ppl metaPpi packetShift hp : ℤ)
    (replay : Bool) (byteShift : ℤ) : Buffer :=
  let sourceOffset := ppl * (metaPpi - packetShift - hp)
  let destOffset := -1 * ppl * hp
  let buf1 := memmoveBuf buf destOffset sourceOffset byteShift
  if replay = false then zeroRegion buf1 (-2 * ppl) ppl else buf1

/-- Loop body of the second loop of `lofar_udp_shift_remainder_packets`,
for one port. -/
def shiftRemPort (shift : ℕ → ℤ) (hp : ℤ) (fix : Bool) (p : ℕ)
    (acc : ℤ × UdpReader) : ℤ × UdpReader :=
  let rv := acc.1
  let r := acc.2
  let packetShift0 :=
    if shift p ≤ r.packetsPerIteration then shift p else r.packetsPerIteration
  if packetShift0 > 0 ∨ hp = 1 ∨ (hp = 1 ∧ fix = true) then
    let rv1 := if packetShift0 < 0 then -1 else rv
    let zeroOff := upd r.meta.inputDataOffset p 0
    let r1 :=
      if packetShift0 < 0 then
        { r with meta := { r.meta with inputDataOffset := zeroOff } }
      else r
    if packetShift0 < 0 ∧ hp = 0 then (rv1, r1)
    else
      let packetShift := if packetShift0 < 0 then 0 else packetShift0
      let ppl := r1.meta.portPacketLength p
      let destOffset := -1 * ppl * hp
      let byteShift0 := (packetShift + hp) * ppl
      let byteShift :=
        if r1.input.isZstd = true ∧
            r1.input.decompressionPos p > ppl * r1.meta.packetsPerIteration then
          byteShift0 +
            (r1.input.decompressionPos p - ppl * r1.meta.packetsPerIteration)
        else byteShift0
      let newDPos := upd r1.input.decompressionPos p (destOffset + byteShift)
      let r2 :=
        if r1.input.isZstd = true then
          { r1 with input := { r1.input with decompressionPos := newDPos } }
        else r1
      let buf2 := shiftPortNewBuffer (r2.meta.inputData p) ppl
        r1.meta.packetsPerIteration packetShift hp
        r2.meta.replayDroppedPackets byteShift
      let newData := upd r2.meta.inputData p buf2
      let newOffs := upd r2.meta.inputDataOffset p (destOffset + byteShift)
      (rv1,
        { r2 with meta :=
            { r2.meta with inputData := newData, inputDataOffset := newOffs } })
  else (rv, r)

def shiftRemLoop (shift : ℕ → ℤ) (hp : ℤ) (fix : Bool) :
    List ℕ → ℤ × UdpReader → ℤ × UdpReader
  | [], acc => acc
  | p :: rest, acc => shiftRemLoop shift hp fix rest (shiftRemPort shift hp fix p acc)

def lofar_udp_shift_remainder_packets (r : UdpReader) (shift : ℕ → ℤ)
    (hp : ℤ) : ℤ × UdpReader :=
  let pre := shiftRemPre shift (List.range r.meta.numPorts) r 0 false
  let total := pre.1
  let fix := pre.2.1
  let r1 := pre.2.2
  if total < 1 ∧ fix = false then (0, r1)
  else shiftRemLoop shift hp fix (List.range r1.meta.numPorts) (0, r1)

/-! ## `lofar_udp_reader_read_step`

Refuse to work on an empty window; reset `packetsPerIteration` to the
configured value; shift the remainder packets; clamp the window to the
remaining read budget (flagging `-2`); then read the missing packets on each
port, narrowing the window (and flagging `-3`) on a short read. -/

/-- Per-port body of the (OpenMP) read loop of `lofar_udp_reader_read_step`,
modelled sequentially. -/
def readStepPort (p : ℕ) (acc : ℤ × UdpReader) : ℤ × UdpReader :=
  let rv := acc.1
  let r := acc.2
  if r.meta.portLastDroppedPackets p > r.meta.packetsPerIteration then (rv, r)
  else
    let charsToRead :=
      (r.meta.packetsPerIteration - r.meta.portLastDroppedPackets p) *
        r.meta.portPacketLength p
    let res := lofar_udp_io_read r p (r.meta.inputDataOffset p) charsToRead
    let charsRead := res.1
    let r1 := res.2
    if charsRead < charsToRead then
      let packetPerIter :=
        charsRead.tdiv (r1.meta.portPacketLength p) +
          r1.meta.portLastDroppedPackets p
      let newPpi :=
        if packetPerIter > 0 then packetPerIter else 0
      let r2 :=
        if packetPerIter < r1.meta.packetsPerIteration then
          { r1 with meta := { r1.meta with packetsPerIteration := newPpi } }
        else r1
      (-3, r2)
    else (rv, r1)

def readStepLoop : List ℕ → ℤ × UdpReader → ℤ × UdpReader
  | [], acc => acc
  | p :: rest, acc => readStepLoop rest (readStepPort p acc)

/-- The window reset at the top of `lofar_udp_reader_read_step`
(`meta->packetsPerIteration = reader->packetsPerIteration`). -/
def readStepReset (r : UdpReader) : UdpReader :=
  { r with meta := { r.meta with packetsPerIteration := r.packetsPerIteration } }

def lofar_udp_reader_read_step (r : UdpReader) : ℤ × UdpReader :=
  if r.meta.packetsPerIteration = 0 then (1, r)
  else
    let r1 := readStepReset r
    let sres := lofar_udp_shift_remainder_packets r1
      r1.meta.portLastDroppedPackets 1
    if sres.1 > 0 then (1, sres.2)
    else
      let r2 := sres.2
      let capHit :=
        r2.meta.packetsRead ≥ r2.meta.packetsReadMax - r2.meta.packetsPerIteration
      let cappedPpi := r2.meta.packetsReadMax - r2.meta.packetsRead
      let r3 :=
        if capHit then
          { r2 with meta := { r2.meta with packetsPerIteration := cappedPpi } }
        else r2
      let rv0 : ℤ := if capHit then -2 else 0
      let res := readStepLoop (List.range r3.meta.numPorts) (rv0, r3)
      (res.1, { res.2 with meta := { res.2.meta with inputDataReady := 1 } })

/-! ## `lofar_udp_skip_to_packet`

Phase 1: every port's first packet must not be past the target.
Phase 2: initialise the per-port deficits from the last-slot packet numbers.
Phase 3: per port, read whole new windows until the last-slot packet number
reaches the target, recomputing every port's deficit after each read.
Phase 4: per port, locate the target inside the window (directly, or by the
widening binary search), shift the tail to the head and refill.

The `while` loops carry an explicit fuel; `none` = fuel exhausted. -/

/-- Phase 1: `true` iff some port's packet at index 0 is past the target
(the source then returns the fatal `target_in_past` error before touching
any state). -/
def checkLoopFail (r : UdpReader) : Bool :=
  (List.range r.meta.numPorts).any fun p =>
    decide (lofar_get_packet_number (r.meta.inputData p) 0 > r.meta.lastPacket)

/-- Phase 2: initial per-port deficit computation. -/
def deficitLoop : List ℕ → UdpReader → UdpReader
  | [], r => r
  | p :: rest, r =>
    let lastOff := (r.meta.packetsPerIteration - 1) * r.meta.portPacketLength p
    let cur := lofar_get_packet_number (r.meta.inputData p) 0
    let lastPkt := lofar_get_packet_number (r.meta.inputData p) lastOff
    let d :=
      if lastPkt ≥ r.meta.lastPacket then r.meta.packetsPerIteration
      else lastPkt - (cur + r.meta.packetsPerIteration)
    let d' := if d < 0 then 0 else d
    let newDropped := upd r.meta.portLastDroppedPackets p d'
    deficitLoop rest
      { r with meta := { r.meta with portLastDroppedPackets := newDropped } }

/-- Inner loop of phase 3: after each fresh read, recompute every port's
deficit (`lastOff` is the byte offset of the last slot computed for the
*outer* port, exactly as in the source), flagging `-2` on an excessive
deficit. -/
def scanInner (cur lastOff : ℤ) : List ℕ → UdpReader → ℤ → UdpReader × ℤ
  | [], r, rv => (r, rv)
  | q :: rest, r, rv =>
    let g := lofar_get_packet_number (r.meta.inputData q) lastOff
    let d :=
      if g ≥ r.meta.lastPacket then r.meta.packetsPerIteration
      else g - (cur + r.meta.packetsPerIteration)
    let d' := if d < 0 then 0 else d
    let rv' := if d' > r.meta.packetsPerIteration then -2 else rv
    let newDropped := upd r.meta.portLastDroppedPackets q d'
    scanInner cur lastOff rest
      { r with meta := { r.meta with portLastDroppedPackets := newDropped } } rv'

/-- The `while (currentPacket < lastPacket)` scan loop of phase 3 for one
port. -/
def scanLoop (p : ℕ) (lastOff : ℤ) :
    ℕ → UdpReader → ℤ → ℤ → Option (Except (ℤ × UdpReader) (UdpReader × ℤ))
  | fuel, r, rv, cur =>
    if cur < r.meta.lastPacket then
      match fuel with
      | 0 => none
      | fuel + 1 =>
        let res := lofar_udp_reader_read_step r
        if res.1 > 0 then some (Except.error (res.1, res.2))
        else
          let r1 := res.2
          let cur' := lofar_get_packet_number (r1.meta.inputData p) lastOff
          let inner := scanInner cur' lastOff (List.range r1.meta.numPorts) r1 res.1
          scanLoop p lastOff fuel inner.1 inner.2 cur'
    else some (Except.ok (r, rv))

/-- Phase 3, looping over the ports. -/
def portScanLoop (fuel : ℕ) :
    List ℕ → UdpReader → ℤ → Option (Except (ℤ × UdpReader) (UdpReader × ℤ))
  | [], r, rv => some (Except.ok (r, rv))
  | p :: rest, r, rv =>
    let lastOff := (r.meta.packetsPerIteration - 1) * r.meta.portPacketLength p
    let cur := lofar_get_packet_number (r.meta.inputData p) lastOff
    match scanLoop p lastOff fuel r rv cur with
    | none => none
    | some (Except.error e) => some (Except.error e)
    | some (Except.ok (r1, rv1)) =>
      if lofar_get_packet_number (r1.meta.inputData p) 0 > r1.meta.lastPacket then
        some (Except.error (1, r1))
      else portScanLoop fuel rest r1 rv1

/-- The widening binary search of phase 4 (the `while (guessPacket !=

    lastPacket)` loop); returns the converged `nextOff`. -/
def searchLoop (p : ℕ) :
    ℕ → UdpReader → ℤ → ℤ → ℤ → ℤ →
      Option (Except (ℤ × UdpReader) (UdpReader × ℤ))
  | fuel, r, startOff, endOff, nextOff, guess =>
    if guess ≠ r.meta.lastPacket then
      match fuel with
      | 0 => none
      | fuel + 1 =>
        let endOff1 :=
          if endOff > r.packetsPerIteration ∨ endOff < 0 then
            r.packetsPerIteration
          else endOff
        let startOff1 :=
          if startOff > r.packetsPerIteration ∨ startOff < 0 then 0 else startOff
        let nextOff' := (startOff1 + endOff1).tdiv 2
        if nextOff' > r.meta.packetsPerIteration then
          some (Except.error (1, r))
        else
          let guess' := lofar_get_packet_number (r.meta.inputData p)
            (nextOff' * r.meta.portPacketLength p)
          if guess' > r.meta.lastPacket then
            let endOff2 := nextOff' - 1
            if startOff1 > endOff2 then
              searchLoop p fuel
                { r with meta := { r.meta with lastPacket := r.meta.lastPacket + 1 } }
                (startOff1 - 10) (endOff2 + 10) nextOff' guess'
            else searchLoop p fuel r startOff1 endOff2 nextOff' guess'
          else if guess' < r.meta.lastPacket then
            let startOff2 := nextOff' + 1
            if startOff2 > endOff1 then
              searchLoop p fuel
                { r with meta := { r.meta with lastPacket := r.meta.lastPacket + 1 } }
                (startOff2 - 10) (endOff1 + 10) nextOff' guess'
            else searchLoop p fuel r startOff2 endOff1 nextOff' guess'
          else searchLoop p fuel r startOff1 endOff1 nextOff' guess'
    else some (Except.ok (r, nextOff))

/-- Phase 4: per port, find the in-window offset of the target, shift the
tail to the head, and refill the vacated space. -/
def alignLoop (fuel : ℕ) :
    List ℕ → UdpReader → ℤ → Option (Except (ℤ × UdpReader) (ℤ × UdpReader))
  | [], r, rv => some (Except.ok (rv, r))
  | p :: rest, r, _rv =>
    let cur0 := lofar_get_packet_number (r.meta.inputData p) 0
    let cur :=
      if r.meta.lastPacket - cur0 > r.meta.packetsPerIteration ∨
          r.meta.lastPacket - cur0 < 0 then
        r.packetsPerIteration.tdiv 2
      else cur0
    let guess := lofar_get_packet_number (r.meta.inputData p)
      ((r.meta.lastPacket - cur) * r.meta.portPacketLength p)
    let searched :
        Option (Except (ℤ × UdpReader) (UdpReader × ℤ)) :=
      if guess = r.meta.lastPacket then
        some (Except.ok
          (r, r.meta.packetsPerIteration - (r.meta.lastPacket - cur)))
      else
        let guess1 := if guess > r.meta.lastPacket then cur else guess
        let startOff := guess1 - cur
        let endOff := r.meta.packetsPerIteration
        let guess2 := lofar_get_packet_number (r.meta.inputData p)
          (startOff * r.meta.portPacketLength p)
        match searchLoop p fuel r startOff endOff startOff guess2 with
        | none => none
        | some (Except.error e) => some (Except.error e)
        | some (Except.ok (r1, nextOff1)) =>
          some (Except.ok (r1, r1.meta.packetsPerIteration - nextOff1))
    match searched with
    | none => none
    | some (Except.error e) => some (Except.error e)
    | some (Except.ok (r1, shiftAmount)) =>
      let shiftArr := upd (fun _ => (0 : ℤ)) p shiftAmount
      let sres := lofar_udp_shift_remainder_packets r1 shiftArr 0
      if sres.1 > 0 then some (Except.error (1, sres.2))
      else
        let r2 := sres.2
        let nchars :=
          (r2.meta.packetsPerIteration - shiftAmount) * r2.meta.portPacketLength p
        if nchars > 0 then
          let rres := lofar_udp_io_read r2 p (r2.meta.inputDataOffset p) nchars
          if nchars > rres.1 then some (Except.error (1, rres.2))
          else alignLoop fuel rest rres.2 sres.1
        else alignLoop fuel rest r2 sres.1

def lofar_udp_skip_to_packet (fuel : ℕ) (r : UdpReader) :
    Option (ℤ × UdpReader) :=
  if checkLoopFail r then some (1, r)
  else
    let r1 := deficitLoop (List.range r.meta.numPorts) r
    match portScanLoop fuel (List.range r1.meta.numPorts) r1 0 with
    | none => none
    | some (Except.error e) => some e
    | some (Except.ok (r2, rv2)) =>
      match alignLoop fuel (List.range r2.meta.numPorts) r2 rv2 with
      | none => none
      | some (Except.error e) => some e
      | some (Except.ok (rv3, r3)) => some (rv3, r3)

/-! ## `lofar_udp_get_first_packet_alignment` and
`lofar_udp_file_reader_reuse` -/

/-- The first loop of `lofar_udp_get_first_packet_alignment`: reset the
dropped-packet counters and raise the target to the maximum per-port first
packet number. -/
def gfpaPre : List ℕ → UdpReader → UdpReader
  | [], r => r
  | p :: rest, r =>
    let newDropped := upd r.meta.portLastDroppedPackets p 0
    let newTotal := upd r.meta.portTotalDroppedPackets p 0
    let r1 := { r with meta :=
      { r.meta with portLastDroppedPackets := newDropped,
                    portTotalDroppedPackets := newTotal } }
    let cur := lofar_get_packet_number (r1.meta.inputData p) 0
    let r2 :=
      if cur > r1.meta.lastPacket then
        { r1 with meta := { r1.meta with lastPacket := cur } }
      else r1
    gfpaPre rest r2

def lofar_udp_get_first_packet_alignment (fuel : ℕ) (r : UdpReader) :
    Option (ℤ × UdpReader) :=
  let r1 := gfpaPre (List.range r.meta.numPorts) r
  match lofar_udp_skip_to_packet fuel r1 with
  | none => none
  | some (rv, r2) =>
    some (rv, { r2 with meta :=
      { r2.meta with lastPacket := r2.meta.lastPacket - 1 } })

/-- The per-port reset loop of `lofar_udp_file_reader_reuse`. -/
def reuseResetPorts : List ℕ → UdpMeta → UdpMeta
  | [], m => m
  | p :: rest, m =>
    reuseResetPorts rest
      { m with inputDataOffset := upd m.inputDataOffset p 0,
               portLastDroppedPackets := upd m.portLastDroppedPackets p 0 }

/-- The field resets performed by `lofar_udp_file_reader_reuse` before the
target search. -/
def reuseReset (r : UdpReader) (startingPacket : ℤ) : UdpReader :=
  let m := r.meta
  let m1 := { m with
    packetsPerIteration := r.packetsPerIteration,
    packetsRead := 0,
    packetsReadMax := startingPacket - m.lastPacket + 2 * r.packetsPerIteration,
    lastPacket := startingPacket,
    calibrationStep := r.calibrationStepsGenerated + 1 }
  let m2 := reuseResetPorts (List.range m1.numPorts) m1
  { r with meta := { m2 with inputDataReady := 0 } }

/-- The reset followed by the (conditional) first skip-to-packet pass of
`lofar_udp_file_reader_reuse`. -/
def reuseAlignPhase (fuel : ℕ) (r : UdpReader) (startingPacket : ℤ) :
    Option (ℤ × UdpReader) :=
  let r1 := reuseReset r startingPacket
  if r1.meta.lastPacket > LFREPOCH then lofar_udp_skip_to_packet fuel r1
  else some (0, r1)

def lofar_udp_file_reader_reuse (fuel : ℕ) (r : UdpReader)
    (startingPacket packetsReadMax : ℤ) : Option (ℤ × UdpReader) :=
  let localMaxPackets := if packetsReadMax < 0 then LONG_MAX else packetsReadMax
  match reuseAlignPhase fuel r startingPacket with
  | none => none
  | some (rv, r1) =>
    if rv > 0 then some (rv, r1)
    else
      match lofar_udp_get_first_packet_alignment fuel r1 with
      | none => none
      | some (rv2, r2) =>
        if rv2 > 0 then some (rv2, r2)
        else
          some (rv2, { r2 with meta :=
            { r2.meta with packetsReadMax := localMaxPackets,
                           inputDataReady := 1, outputDataReady := 0 } })

/-! ## `lofar_udp_reader_step_timed`

The calibration regeneration (`lofar_udp_reader_calibration`, which only
returns 0 or 1 in the source) and the processing kernel
(`lofar_udp_cpp_loop_interface`, defined in `lofar_udp_backends.hpp`, not
among the provided sources) are passed in as oracles.  The result records
the read-phase and processing-phase return values next to the value
returned to the caller. -/

structure StepOutcome where
  ret : ℤ
  readRet : ℤ
  procRet : ℤ
  reader : UdpReader

def lofar_udp_reader_step_timed (r : UdpReader)
    (calib : UdpReader → ℤ × UdpReader) (kernel : UdpMeta → ℤ × UdpMeta) :
    StepOutcome :=
  let c :=
    if r.meta.calibrateData = true ∧
        r.meta.calibrationStep ≥ r.calibrationStepsGenerated then
      calib r
    else (1, r)
  if r.meta.calibrateData = true ∧
      r.meta.calibrationStep ≥ r.calibrationStepsGenerated ∧ (0 : ℤ) > c.1 then
    { ret := 0, readRet := 0, procRet := 0, reader := c.2 }
  else
    let r0 := c.2
    let readPhase :=
      if r0.meta.inputDataReady ≠ 1 ∧ r0.meta.outputDataReady ≠ 0 then
        let res := lofar_udp_reader_read_step r0
        if res.1 > 0 then Except.error (res.1, res.2)
        else
          Except.ok (res.1,
            { res.2 with meta :=
              { res.2.meta with leadingPacket := res.2.meta.lastPacket + 1,
                                outputDataReady := 0 } })
      else Except.ok (0, r0)
    match readPhase with
    | Except.error (rv, r1) =>
      { ret := rv, readRet := rv, procRet := 0, reader := r1 }
    | Except.ok (readRet, r1) =>
      let procPhase :=
        if r1.meta.outputDataReady ≠ 1 ∧ r1.meta.packetsPerIteration > 0 then
          let res := kernel r1.meta
          if res.1 > 0 then Except.error (res.1, { r1 with meta := res.2 })
          else
            Except.ok (res.1,
              { r1 with meta :=
                { res.2 with
                  packetsRead := res.2.packetsRead + res.2.packetsPerIteration,
                  inputDataReady := 0 } })
        else Except.ok (0, r1)
      match procPhase with
      | Except.error (rv, r2) =>
        { ret := rv, readRet := readRet, procRet := rv, reader := r2 }
      | Except.ok (procRet, r2) =>
        { ret := if readRet < procRet then readRet else procRet,
          readRet := readRet, procRet := procRet, reader := r2 }

/-! ## `lofar_udp_parse_headers`

The 16-byte wire header is modelled at the level of its decoded fields (the
byte offsets and the `lofar_source_bytes` bit positions live in
`lofar_udp_structs.h`, not among the provided sources; the validation logic
and all computations below are from `lofar_udp_reader.c`).  The result
collects the geometry fields written to the meta structure, plus the list of
ports for which the mixed-packet-length warning was printed (`none` =
fatal parse failure, return 1 in the source). -/

structure CepHeader where
  rspVer : ℤ
  timestamp : ℤ
  seq : ℤ
  nbeam : ℤ
  ntimeslice : ℤ
  padding0 : ℤ
  errorBit : ℤ
  bitModeRaw : ℤ
  padding1 : ℤ
  clockBit : ℤ
  stationIDRaw : ℤ

structure ParsedMeta where
  numPorts : ℕ
  totalRawBeamlets : ℤ
  totalProcBeamlets : ℤ
  portRawBeamlets : ℕ → ℤ
  portRawCumulativeBeamlets : ℕ → ℤ
  portCumulativeBeamlets : ℕ → ℤ
  baseBeamlets : ℕ → ℤ
  upperBeamlets : ℕ → ℤ
  inputBitMode : ℤ
  clockBit : ℤ
  stationID : ℤ
  portPacketLength : ℕ → ℤ
  mixedLengthWarnings : List ℕ

/-- One iteration of the port loop of `lofar_udp_parse_headers`: validate
the header of port `p` and update the geometry; returns the updated meta and
the `cacheBitMode` local. -/
def parseHeaderPort (h : CepHeader) (bl0 bl1 : ℤ) (p : ℕ) (m : ParsedMeta)
    (cacheBitMode : ℤ) : Option (ParsedMeta × ℤ) :=
    if h.rspVer < UDPCURVER then none
    else if h.timestamp < LFREPOCH then none
    else if h.seq > RSPMAXSEQ then none
    else if h.nbeam > UDPMAXBEAM then none
    else if h.ntimeslice ≠ UDPNTIMESLICE then none
    else if h.padding0 ≠ 0 then none
    else if h.errorBit ≠ 0 then none
    else if h.bitModeRaw = 3 then none
    else if h.padding1 > 1 then none
    else if p ≠ 0 ∧ m.clockBit ≠ h.clockBit then none
    else
      let m1 := { m with clockBit := h.clockBit,
                         stationID := h.stationIDRaw.tdiv 32 }
      let raw := h.nbeam
      let m2 := { m1 with
        portRawBeamlets := upd m1.portRawBeamlets p raw,
        upperBeamlets := upd m1.upperBeamlets p raw,
        portRawCumulativeBeamlets :=
          upd m1.portRawCumulativeBeamlets p m1.totalRawBeamlets,
        portCumulativeBeamlets :=
          upd m1.portCumulativeBeamlets p m1.totalProcBeamlets }
      let upper :=
        if bl1 ≠ 0 ∧ bl1 < (p + 1 : ℤ) * raw ∧ bl1 ≥ (p : ℤ) * raw then
          bl1 - m2.totalRawBeamlets
        else m2.upperBeamlets p
      let m3 := { m2 with upperBeamlets := upd m2.upperBeamlets p upper }
      let m4 :=
        if bl0 ≠ 0 ∧ bl0 < (p + 1 : ℤ) * raw ∧ bl0 ≥ (p : ℤ) * raw then
          { m3 with baseBeamlets := upd m3.baseBeamlets p (bl0 - m3.totalRawBeamlets),
                    totalProcBeamlets := m3.totalProcBeamlets + (upper - bl0) }
        else
          { m3 with baseBeamlets := upd m3.baseBeamlets p 0,
                    totalProcBeamlets := m3.totalProcBeamlets + upper }
      let m5 := { m4 with totalRawBeamlets := m4.totalRawBeamlets + raw }
      let inBitOpt : Option ℤ :=
        if h.bitModeRaw = 0 then some 16
        else if h.bitModeRaw = 1 then some 8
        else if h.bitModeRaw = 2 then some 4
        else none
      match inBitOpt with
      | none => none
      | some inBit =>
        let m6 := { m5 with inputBitMode := inBit }
        if p ≠ 0 ∧ cacheBitMode ≠ inBit then none
        else
          let cache' := if p = 0 then inBit else cacheBitMode
          let bitMulX2 : ℤ :=
            if inBit = 4 then 1 else if inBit = 16 then 4 else 2
          let ppl : ℤ :=
            UDPHDRLEN + (raw * bitMulX2 * UDPNTIMESLICE * UDPNPOL).tdiv 2
          let pplArr := upd m6.portPacketLength p ppl
          let m7 := { m6 with portPacketLength := pplArr }
          let m8 :=
            if p > 1 ∧ pplArr p ≠ pplArr (p - 1) then
              { m7 with mixedLengthWarnings := m7.mixedLengthWarnings ++ [p] }
            else m7
          some (m8, cache')

def parseHeadersLoop (hdr : ℕ → CepHeader) (bl0 bl1 : ℤ) :
    List ℕ → ParsedMeta → ℤ → Option ParsedMeta
  | [], m, _ => some m
  | p :: rest, m, cacheBitMode =>
    match parseHeaderPort (hdr p) bl0 bl1 p m cacheBitMode with
    | none => none
    | some (m', cache') => parseHeadersLoop hdr bl0 bl1 rest m' cache'

/-- The parsed-meta value before the port loop of `lofar_udp_parse_headers`
runs (only `totalRawBeamlets` and `totalProcBeamlets` are explicitly
initialised; the remaining fields start from the zero-initialised meta
defaults). -/
def initialParsedMeta (numPorts : ℕ) : ParsedMeta where
  numPorts := numPorts
  totalRawBeamlets := 0
  totalProcBeamlets := 0
  portRawBeamlets := fun _ => 0
  portRawCumulativeBeamlets := fun _ => 0
  portCumulativeBeamlets := fun _ => 0
  baseBeamlets := fun _ => 0
  upperBeamlets := fun _ => 0
  inputBitMode := 0
  clockBit := 0
  stationID := 0
  portPacketLength := fun _ => 0
  mixedLengthWarnings := []

def lofar_udp_parse_headers (numPorts : ℕ) (hdr : ℕ → CepHeader)
    (bl0 bl1 : ℤ) : Option ParsedMeta :=
  parseHeadersLoop hdr bl0 bl1 (List.range numPorts)
    (initialParsedMeta numPorts) 0

/-! ## `lofar_udp_setup_processing`

The `float` arithmetic of the source (`bitMul`, `mulFactor`, the
`workingData` products) only ever multiplies integers by powers of two
small enough that every intermediate value is exactly representable in a
single-precision float; each `float` expression is therefore an exact
rational with a power-of-two denominator, and the `(int)` casts truncate it
toward zero.  The model keeps the numerator and denominator as integers and
performs the truncation with `Int.tdiv` (C `/` semantics). -/

structure ProcMeta where
  processingMode : ℤ
  calibrateData : Bool
  inputBitMode : ℤ
  outputBitMode : ℤ
  numPorts : ℕ
  totalProcBeamlets : ℤ
  portPacketLength : ℕ → ℤ
  numOutputs : ℤ
  packetOutputLength : ℕ → ℤ

/-- The mode set accepted by the sanity-check switch at the top of
`lofar_udp_setup_processing` (`case 0 ... 1`, `2`, `10 ... 11`, `20 ... 21`,
`30 ... 32`, `100 ... 104`, `110 ... 114`, `120 ... 124`, `130 ... 134`,
`150 ... 154`, `160 ... 164`). -/
def validProcessingMode (m : ℤ) : Prop :=
  (0 ≤ m ∧ m ≤ 2) ∨ (10 ≤ m ∧ m ≤ 11) ∨ (20 ≤ m ∧ m ≤ 21) ∨
    (30 ≤ m ∧ m ≤ 32) ∨ (100 ≤ m ∧ m ≤ 104) ∨ (110 ≤ m ∧ m ≤ 114) ∨
    (120 ≤ m ∧ m ≤ 124) ∨ (130 ≤ m ∧ m ≤ 134) ∨ (150 ≤ m ∧ m ≤ 154) ∨
    (160 ≤ m ∧ m ≤ 164)

instance (m : ℤ) : Decidable (validProcessingMode m) := by
  unfold validProcessingMode; infer_instance

/-- Selections made by the second switch of `lofar_udp_setup_processing`:
number of outputs, packet-length scale factor (`mulFactor`, kept as an exact
numerator/denominator pair), output bit mode, header offset, and whether the
mode is an equal-input-output copy mode. -/
def modeSelection (m : ℤ) (outBit0 inBit : ℤ) :
    Option (ℤ × (ℤ × ℤ) × ℤ × ℤ × Bool) :=
  if m = 0 ∨ m = 1 then
    some (0, (1, 1), (if inBit = 4 then 4 else outBit0),
      (if m = 0 then 0 else -UDPHDRLEN), true)
  else if m = 2 ∨ m = 11 ∨ m = 21 ∨ m = 31 then
    some (UDPNPOL, (1, 1), outBit0, -UDPHDRLEN, false)
  else if m = 10 ∨ m = 20 ∨ m = 30 then
    some (1, (1, 1), outBit0, -UDPHDRLEN, false)
  else if m = 32 then
    some (2, (1, 1), outBit0, -UDPHDRLEN, false)
  else if m = 100 ∨ m = 110 ∨ m = 120 ∨ m = 130 then
    some (1, (1, 4), 32, -UDPHDRLEN, false)
  else if m = 150 then
    some (4, (1, 1), 32, -UDPHDRLEN, false)
  else if m = 160 then
    some (2, (2, 4), 32, -UDPHDRLEN, false)
  else if (101 ≤ m ∧ m ≤ 104) ∨ (111 ≤ m ∧ m ≤ 114) ∨
      (121 ≤ m ∧ m ≤ 124) ∨ (131 ≤ m ∧ m ≤ 134) then
    some (1, (1, 2 ^ ((m % 10) + 2).toNat), 32, -UDPHDRLEN, false)
  else if 151 ≤ m ∧ m ≤ 154 then
    some (4, (1, 2 ^ (m % 10).toNat), 32, -UDPHDRLEN, false)
  else if 161 ≤ m ∧ m ≤ 164 then
    some (2, (1, 2 ^ ((m % 10) + 1).toNat), 32, -UDPHDRLEN, false)
  else none

/-- The per-port write loop for the equal-input-output modes. -/
def equalLenLoop (hdrOffset : ℤ) (ppl : ℕ → ℤ) :
    List ℕ → (ℕ → ℤ) → ℕ → ℤ
  | [], out => out
  | q :: rest, out => equalLenLoop hdrOffset ppl rest (upd out q (hdrOffset + ppl q))

/-- The per-output write loop for the other modes. -/
def outputLenLoop (v : ℤ) : List ℕ → (ℕ → ℤ) → ℕ → ℤ
  | [], out => out
  | q :: rest, out => outputLenLoop v rest (upd out q v)

def lofar_udp_setup_processing (meta : ProcMeta) : Option ProcMeta :=
  let m := meta.processingMode
  if ¬ validProcessingMode m then none
  else
    let meta1 :=
      if (0 ≤ m ∧ m ≤ 1) ∧ meta.calibrateData = true then
        { meta with calibrateData := false }
      else meta
    let outBit0 := if meta1.inputBitMode = 4 then 8 else meta1.inputBitMode
    match modeSelection m outBit0 meta1.inputBitMode with
    | none => none
    | some (numOut0, mulFactor, outBit1, hdrOffset, equalInOut) =>
      let numOut := if m = 0 ∨ m = 1 then (meta1.numPorts : ℤ) else numOut0
      let outBit := if meta1.calibrateData = true then 32 else outBit1
      let meta2 := { meta1 with numOutputs := numOut, outputBitMode := outBit }
      if equalInOut then
        some { meta2 with
          packetOutputLength :=
            equalLenLoop hdrOffset meta2.portPacketLength
              (List.range meta2.numPorts) meta2.packetOutputLength }
      else
        let workingData0 : ℤ :=
          (meta2.numPorts : ℤ) * (hdrOffset + UDPHDRLEN) +
            (meta2.totalProcBeamlets * UDPNPOL * meta2.inputBitMode *
              UDPNTIMESLICE).tdiv 8
        let workingData1 : ℤ :=
          (workingData0 * outBit * mulFactor.1).tdiv
            (meta2.inputBitMode * mulFactor.2)
        let workingData2 := workingData1.tdiv numOut
        some { meta2 with
          packetOutputLength :=
            outputLenLoop workingData2 (List.range numOut.toNat)
              meta2.packetOutputLength }

/-! ## `lofar_udp_reader_config_check`

The `lofar_udp_config` pointer fields are modelled as the facts the checks
test: whether a calibration struct was supplied and whether its FIFO path
compares equal to the empty string. -/

structure UdpConfig where
  numPorts : ℤ
  packetsPerIteration : ℤ
  beamletLimits0 : ℤ
  beamletLimits1 : ℤ
  calibrateData : ℤ
  hasCalibStruct : Bool
  calibFifoEmpty : Bool
  processingMode : ℤ
  startingPacket : ℤ
  packetsReadMax : ℤ
  ompThreads : ℤ
  replayDroppedPackets : ℤ

def lofar_udp_reader_config_check (c : UdpConfig) : Option UdpConfig :=
  if c.numPorts > MAX_NUM_PORTS then none
  else if c.packetsPerIteration < 1 then none
  else if c.beamletLimits0 > 0 ∧ c.beamletLimits1 > 0 ∧
      c.beamletLimits0 > c.beamletLimits1 then none
  else if c.beamletLimits0 > 0 ∧ c.beamletLimits1 > 0 ∧
      c.processingMode < 2 then none
  else if c.calibrateData ≠ 0 ∧ c.calibrateData ≠ 1 then none
  else if c.calibrateData ≠ 0 ∧ c.hasCalibStruct = false then none
  else if c.hasCalibStruct = true ∧ c.calibFifoEmpty = true then none
  else if c.processingMode < 0 then none
  else if c.startingPacket > 0 ∧ c.startingPacket < LFREPOCH then none
  else if c.packetsReadMax < 1 then none
  else
    let c1 := if c.ompThreads < 4 then { c with ompThreads := 4 } else c
    if c1.replayDroppedPackets ≠ 0 ∧ c1.replayDroppedPackets ≠ 1 then none
    else some c1

/-! ## Concrete states used to instantiate the theorems -/

def zeroBuffer : Buffer := fun _ => 0

def baseMeta : UdpMeta where
  numPorts := 1
  portPacketLength := fun _ => 1
  packetsPerIteration := 2
  packetsRead := 0
  packetsReadMax := 100
  lastPacket := 0
  leadingPacket := 0
  portLastDroppedPackets := fun _ => 0
  portTotalDroppedPackets := fun _ => 0
  inputDataOffset := fun _ => 0
  inputData := fun _ => zeroBuffer
  replayDroppedPackets := true
  calibrateData := false
  calibrationStep := 0
  inputDataReady := 0
  outputDataReady := 0

def baseStreams : InputStreams where
  streamData := fun _ _ => 0
  streamPos := fun _ => 0
  streamLen := fun _ => 1000
  isZstd := false
  decompressionPos := fun _ => 0

def baseReader : UdpReader where
  meta := baseMeta
  packetsPerIteration := 2
  input := baseStreams
  calibrationStepsGenerated := 0

/-! ## Claim C10 -/

/-- C10: if `lofar_udp_reader_read_step` is entered with
`meta->packetsPerIteration == 0`, it returns the fatal code 1 immediately,
before performing any shift or read, leaving the whole reader state (all
per-port buffers, offsets and counters) unchanged. -/
theorem read_step_zero_window_fatal (r : UdpReader)
    (h : r.meta.packetsPerIteration = 0) :
    lofar_udp_reader_read_step r = (1, r) := by
  unfold lofar_udp_reader_read_step
  rw [if_pos h]

def c10Reader : UdpReader :=
  { baseReader with meta := { baseMeta with packetsPerIteration := 0 } }

theorem read_step_zero_window_fatal_witness :
    lofar_udp_reader_read_step c10Reader = (1, c10Reader) :=
  read_step_zero_window_fatal c10Reader rfl

/-! ## Claim C4 -/

/-- C4: if on any port the packet number of the packet at buffer index 0 is
strictly greater than the target packet, `lofar_udp_skip_to_packet` fails
with the fatal `target_in_past` error (return 1) and the reader state is
returned untouched: no port's window has been advanced or shifted. -/
theorem skip_to_packet_target_in_past (fuel : ℕ) (r : UdpReader)
    (h : ∃ p, p < r.meta.numPorts ∧
      lofar_get_packet_number (r.meta.inputData p) 0 > r.meta.lastPacket) :
    lofar_udp_skip_to_packet fuel r = some (1, r) := by
  have hc : checkLoopFail r = true := by
    rcases h with ⟨p, hp, hgt⟩
    unfold checkLoopFail
    rw [List.any_eq_true]
    exact ⟨p, List.mem_range.mpr hp, decide_eq_true hgt⟩
  unfold lofar_udp_skip_to_packet
  rw [if_pos hc]

def c4Reader : UdpReader :=
  { baseReader with meta := { baseMeta with lastPacket := -1 } }

theorem skip_to_packet_target_in_past_witness :
    lofar_udp_skip_to_packet 1 c4Reader = some (1, c4Reader) :=
  skip_to_packet_target_in_past 1 c4Reader ⟨0, by decide, by decide⟩

/-! ## Claim C7 -/

def c7ConfigOne : UdpConfig where
  numPorts := 4
  packetsPerIteration := 1
  beamletLimits0 := 0
  beamletLimits1 := 0
  calibrateData := 0
  hasCalibStruct := false
  calibFifoEmpty := false
  processingMode := 0
  startingPacket := -1
  packetsReadMax := 1
  ompThreads := 4
  replayDroppedPackets := 0

def c7ConfigTwo : UdpConfig := { c7ConfigOne with packetsPerIteration := 2 }

def c7ConfigZero : UdpConfig := { c7ConfigOne with packetsPerIteration := 0 }

/-- C7 counterexample: a configuration with `packetsPerIteration = 1` (and
every other field valid) is accepted by the configuration check, refuting
the claim that every value below 2 is rejected. -/
theorem config_check_accepts_one_packet :
    (lofar_udp_reader_config_check c7ConfigOne).isSome = true ∧
      c7ConfigOne.packetsPerIteration < 2 := by decide

/-- C7 (amended): the configuration check rejects `packetsPerIteration`
below 1 as `config_invalid` (no session is created), and
`packetsPerIteration = 2` is accepted. -/
theorem config_check_packets_bounds :
    (∀ c : UdpConfig, c.packetsPerIteration < 1 →
      lofar_udp_reader_config_check c = none) ∧
      lofar_udp_reader_config_check c7ConfigTwo = some c7ConfigTwo := by
  constructor
  · intro c h
    unfold lofar_udp_reader_config_check
    split_ifs <;> first | rfl | omega
  · rfl

theorem config_check_packets_bounds_witness :
    lofar_udp_reader_config_check c7ConfigZero = none :=
  config_check_packets_bounds.1 c7ConfigZero (by decide)

/-! ## Claim C8 -/

def c8Hdr : ℕ → CepHeader := fun p =>
  { rspVer := 3, timestamp := LFREPOCH, seq := 0,
    nbeam := if p = 0 then 122 else 61, ntimeslice := 16, padding0 := 0,
    errorBit := 0, bitModeRaw := 1, padding1 := 0, clockBit := 1,
    stationIDRaw := 0 }

/-! ## Shift and read-loop helper lemmas -/

theorem upd_self {α : Type} (f : ℕ → α) (p : ℕ) (v : α) : upd f p v p = v :=
  if_pos rfl

theorem upd_ne {α : Type} (f : ℕ → α) (q : ℕ) (v : α) {p : ℕ} (h : p ≠ q) :
    upd f q v p = f p := if_neg h

/-- The reader fields that none of the shift / read-step / skip machinery
ever writes. -/
def CoreFrame (a b : UdpReader) : Prop :=
  a.meta.numPorts = b.meta.numPorts ∧
  a.meta.portPacketLength = b.meta.portPacketLength ∧
  a.meta.packetsRead = b.meta.packetsRead ∧
  a.meta.packetsReadMax = b.meta.packetsReadMax ∧
  a.meta.replayDroppedPackets = b.meta.replayDroppedPackets ∧
  a.packetsPerIteration = b.packetsPerIteration ∧
  a.input.isZstd = b.input.isZstd ∧
  a.calibrationStepsGenerated = b.calibrationStepsGenerated ∧
  a.meta.calibrateData = b.meta.calibrateData

theorem coreFrame_refl (a : UdpReader) : CoreFrame a a :=
  ⟨rfl, rfl, rfl, rfl, rfl, rfl, rfl, rfl, rfl⟩

theorem coreFrame_trans {a b c : UdpReader} (h1 : CoreFrame a b)
    (h2 : CoreFrame b c) : CoreFrame a c := by
  obtain ⟨a1, a2, a3, a4, a5, a6, a7, a8, a9⟩ := h1
  obtain ⟨b1, b2, b3, b4, b5, b6, b7, b8, b9⟩ := h2
  exact ⟨a1.trans b1, a2.trans b2, a3.trans b3, a4.trans b4, a5.trans b5,
    a6.trans b6, a7.trans b7, a8.trans b8, a9.trans b9⟩

set_option maxHeartbeats 1600000 in
/-- One port of the shift loop: core frame plus the window size, target,
deficits and stream state are untouched. -/
theorem shiftRemPort_frame (shift : ℕ → ℤ) (hp : ℤ) (fix : Bool) (q : ℕ)
    (acc : ℤ × UdpReader) :
    CoreFrame (shiftRemPort shift hp fix q acc).2 acc.2 ∧
    (shiftRemPort shift hp fix q acc).2.meta.packetsPerIteration =
      acc.2.meta.packetsPerIteration ∧
    (shiftRemPort shift hp fix q acc).2.meta.lastPacket =
      acc.2.meta.lastPacket ∧
    (shiftRemPort shift hp fix q acc).2.meta.portLastDroppedPackets =
      acc.2.meta.portLastDroppedPackets ∧
    (shiftRemPort shift hp fix q acc).2.input.streamPos =
      acc.2.input.streamPos ∧
    (shiftRemPort shift hp fix q acc).2.input.streamLen =
      acc.2.input.streamLen ∧
    (shiftRemPort shift hp fix q acc).2.input.streamData =
      acc.2.input.streamData := by
  simp only [shiftRemPort]
  split_ifs <;>
    exact ⟨⟨rfl, rfl, rfl, rfl, rfl, rfl, rfl, rfl, rfl⟩, rfl, rfl, rfl,
      rfl, rfl, rfl⟩

set_option maxHeartbeats 1600000 in
/-- One port of the shift loop leaves every *other* port's buffer alone. -/
theorem shiftRemPort_other (shift : ℕ → ℤ) (hp : ℤ) (fix : Bool) (q : ℕ)
    (acc : ℤ × UdpReader) {p : ℕ} (h : p ≠ q) :
    (shiftRemPort shift hp fix q acc).2.meta.inputData p =
      acc.2.meta.inputData p := by
  simp only [shiftRemPort]
  split_ifs <;> first | rfl | (exact upd_ne _ _ _ h)

theorem shiftRemLoop_frame (shift : ℕ → ℤ) (hp : ℤ) (fix : Bool)
    (L : List ℕ) :
    ∀ acc : ℤ × UdpReader,
      CoreFrame (shiftRemLoop shift hp fix L acc).2 acc.2 ∧
      (shiftRemLoop shift hp fix L acc).2.meta.packetsPerIteration =
        acc.2.meta.packetsPerIteration ∧
      (shiftRemLoop shift hp fix L acc).2.meta.lastPacket =
        acc.2.meta.lastPacket ∧
      (shiftRemLoop shift hp fix L acc).2.meta.portLastDroppedPackets =
        acc.2.meta.portLastDroppedPackets ∧
      (shiftRemLoop shift hp fix L acc).2.input.streamPos =
        acc.2.input.streamPos ∧
      (shiftRemLoop shift hp fix L acc).2.input.streamLen =
        acc.2.input.streamLen ∧
      (shiftRemLoop shift hp fix L acc).2.input.streamData =
        acc.2.input.streamData := by
  induction L with
  | nil =>
    intro acc
    exact ⟨coreFrame_refl _, rfl, rfl, rfl, rfl, rfl, rfl⟩
  | cons q rest ih =>
    intro acc
    obtain ⟨c1, e1, e2, e3, e4, e5, e6⟩ := ih (shiftRemPort shift hp fix q acc)
    obtain ⟨c2, f1, f2, f3, f4, f5, f6⟩ := shiftRemPort_frame shift hp fix q acc
    exact ⟨coreFrame_trans c1 c2, e1.trans f1, e2.trans f2, e3.trans f3,
      e4.trans f4, e5.trans f5, e6.trans f6⟩

/-- The shift loop leaves the buffers of ports outside the list alone. -/
theorem shiftRemLoop_outside (shift : ℕ → ℤ) (hp : ℤ) (fix : Bool)
    (L : List ℕ) {p : ℕ} (h : p ∉ L) :
    ∀ acc : ℤ × UdpReader,
      (shiftRemLoop shift hp fix L acc).2.meta.inputData p =
        acc.2.meta.inputData p := by
  induction L with
  | nil => intro acc; rfl
  | cons q rest ih =>
    intro acc
    have hpq : p ≠ q := fun hEq => h (hEq ▸ List.mem_cons_self q rest)
    have hrest : p ∉ rest := fun hm => h (List.mem_cons_of_mem q hm)
    rw [shiftRemLoop, ih hrest, shiftRemPort_other shift hp fix q acc hpq]

theorem shiftPortNewBuffer_zero (buf : Buffer) (ppl metaPpi ps hp bs i : ℤ)
    (hlo : -2 * ppl ≤ i) (hhi : i < -2 * ppl + ppl) :
    shiftPortNewBuffer buf ppl metaPpi ps hp false bs i = 0 := by
  simp only [shiftPortNewBuffer]
  rw [if_pos trivial]
  simp only [zeroRegion]
  rw [if_pos ⟨hlo, hhi⟩]

theorem shiftPortNewBuffer_low (buf : Buffer) (ppl metaPpi ps hp bs i : ℤ)
    (hhp : hp = 0 ∨ hp = 1) (hppl : 0 ≤ ppl) (hi : i < -ppl) :
    shiftPortNewBuffer buf ppl metaPpi ps hp true bs i = buf i := by
  simp only [shiftPortNewBuffer]
  rw [if_neg (by norm_num)]
  simp only [memmoveBuf]
  rw [if_neg (by rintro ⟨hA, -⟩; rcases hhp with rfl | rfl <;> omega)]

set_option maxHeartbeats 1600000 in
/-- With `handlePadding = 1` the shift block for the port always executes:
the port's buffer becomes `shiftPortNewBuffer` for some (clamped,
nonnegative) packet shift and byte count. -/
theorem shiftRemPort_self_entered (shift : ℕ → ℤ) (fix : Bool) (p : ℕ)
    (acc : ℤ × UdpReader) :
    ∃ ps bs,
      (shiftRemPort shift 1 fix p acc).2.meta.inputData p =
        shiftPortNewBuffer (acc.2.meta.inputData p)
          (acc.2.meta.portPacketLength p) acc.2.meta.packetsPerIteration ps 1
          acc.2.meta.replayDroppedPackets bs ∧ 0 ≤ ps := by
  simp only [shiftRemPort]
  split_ifs
  all_goals try (dsimp only; rw [upd_self]; exact ⟨_, _, rfl, by omega⟩)
  all_goals try (exfalso; omega)
  all_goals simp_all

set_option maxHeartbeats 1600000 in
/-- For any padding flag, the port's buffer after its own shift step is
either untouched or a `shiftPortNewBuffer` image with a nonnegative packet
shift. -/
theorem shiftRemPort_self_cases (shift : ℕ → ℤ) (hp : ℤ) (fix : Bool)
    (p : ℕ) (acc : ℤ × UdpReader) :
    (shiftRemPort shift hp fix p acc).2.meta.inputData p =
      acc.2.meta.inputData p ∨
    ∃ ps bs,
      (shiftRemPort shift hp fix p acc).2.meta.inputData p =
        shiftPortNewBuffer (acc.2.meta.inputData p)
          (acc.2.meta.portPacketLength p) acc.2.meta.packetsPerIteration ps hp
          acc.2.meta.replayDroppedPackets bs ∧ 0 ≤ ps := by
  simp only [shiftRemPort]
  split_ifs
  all_goals try (left; rfl)
  all_goals try (right; dsimp only; rw [upd_self]; exact ⟨_, _, rfl, by omega⟩)
  all_goals try (exfalso; omega)
  all_goals simp_all

theorem shiftRemLoop_zeroes_guard (shift : ℕ → ℤ) (fix : Bool)
    (L : List ℕ) (p : ℕ) (hmem : p ∈ L) (hnd : L.Nodup) :
    ∀ (acc : ℤ × UdpReader) (i : ℤ),
      acc.2.meta.replayDroppedPackets = false →
      -2 * acc.2.meta.portPacketLength p ≤ i →
      i < -2 * acc.2.meta.portPacketLength p +
        acc.2.meta.portPacketLength p →
      (shiftRemLoop shift 1 fix L acc).2.meta.inputData p i = 0 := by
  induction L with
  | nil => cases hmem
  | cons q rest ih =>
    intro acc i hrep hlo hhi
    rcases List.mem_cons.mp hmem with rfl | hmem'
    · rw [shiftRemLoop,
        shiftRemLoop_outside shift 1 fix rest (List.nodup_cons.mp hnd).1 _]
      obtain ⟨ps, bs, heq, -⟩ := shiftRemPort_self_entered shift fix p acc
      rw [heq, hrep]
      exact shiftPortNewBuffer_zero _ _ _ _ _ _ i hlo hhi
    · rw [shiftRemLoop]
      obtain ⟨⟨-, hppl, -⟩, -, -, -, -, -, -⟩ :=
        shiftRemPort_frame shift 1 fix q acc
      obtain ⟨⟨-, -, -, -, hrep', -, -, -, -⟩, -, -, -, -, -, -⟩ :=
        shiftRemPort_frame shift 1 fix q acc
      refine ih hmem' (List.nodup_cons.mp hnd).2 _ i ?_ ?_ ?_
      · rw [hrep']; exact hrep
      · rw [hppl]; exact hlo
      · rw [hppl]; exact hhi

theorem shiftRemLoop_low_untouched (shift : ℕ → ℤ) (hp : ℤ) (fix : Bool)
    (L : List ℕ) (p : ℕ) (hhp : hp = 0 ∨ hp = 1) :
    ∀ (acc : ℤ × UdpReader) (i : ℤ),
      acc.2.meta.replayDroppedPackets = true →
      0 ≤ acc.2.meta.portPacketLength p →
      i < -(acc.2.meta.portPacketLength p) →
      (shiftRemLoop shift hp fix L acc).2.meta.inputData p i =
        acc.2.meta.inputData p i := by
  induction L with
  | nil => intro acc i _ _ _; rfl
  | cons q rest ih =>
    intro acc i hrep hppl hi
    rw [shiftRemLoop]
    obtain ⟨⟨-, hpplEq, -⟩, -, -, -, -, -, -⟩ :=
      shiftRemPort_frame shift hp fix q acc
    obtain ⟨⟨-, -, -, -, hrepEq, -, -, -, -⟩, -, -, -, -, -, -⟩ :=
      shiftRemPort_frame shift hp fix q acc
    rw [ih _ i (by rw [hrepEq]; exact hrep) (by rw [hpplEq]; exact hppl)
      (by rw [hpplEq]; exact hi)]
    by_cases hpq : p = q
    · subst hpq
      rcases shiftRemPort_self_cases shift hp fix p acc with heq | ⟨ps, bs, heq, -⟩
      · exact congrFun heq i
      · rw [heq, hrep]
        exact shiftPortNewBuffer_low _ _ _ _ _ _ i hhp hppl hi
    · exact congrFun (shiftRemPort_other shift hp fix q acc hpq) i

/-- The early-return guard of `lofar_udp_shift_remainder_packets` does not
fire: some work is pending (a positive total shift, or a decompression
overshoot to fix). -/
def shiftPerformsWork (r : UdpReader) (shift : ℕ → ℤ) : Prop :=
  ¬((shiftRemPre shift (List.range r.meta.numPorts) r 0 false).1 < 1 ∧
    (shiftRemPre shift (List.range r.meta.numPorts) r 0 false).2.1 = false)

instance (r : UdpReader) (shift : ℕ → ℤ) :
    Decidable (shiftPerformsWork r shift) := by
  unfold shiftPerformsWork; infer_instance

/-- The first loop of the shift protocol only rewrites `inputDataOffset`. -/
theorem shiftRemPre_offsets (shift : ℕ → ℤ) (L : List ℕ) :
    ∀ (r : UdpReader) (t : ℤ) (f : Bool),
      ∃ off, (shiftRemPre shift L r t f).2.2 =
        { r with meta := { r.meta with inputDataOffset := off } } := by
  induction L with
  | nil => exact fun r t f => ⟨r.meta.inputDataOffset, rfl⟩
  | cons p rest ih =>
    intro r t f
    simp only [shiftRemPre]
    exact ih _ _ _

theorem shiftRemPre_total (shift : ℕ → ℤ) (L : List ℕ) :
    ∀ (r : UdpReader) (t : ℤ) (f : Bool),
      (shiftRemPre shift L r t f).1 = t + (L.map shift).sum := by
  induction L with
  | nil => intro r t f; simp [shiftRemPre]
  | cons p rest ih =>
    intro r t f
    simp only [shiftRemPre, List.map_cons, List.sum_cons]
    rw [ih]
    ring

theorem shiftRemPre_fix_false (shift : ℕ → ℤ) (L : List ℕ) :
    ∀ (r : UdpReader) (t : ℤ), r.input.isZstd = false →
      (shiftRemPre shift L r t false).2.1 = false := by
  induction L with
  | nil => intro r t _; rfl
  | cons p rest ih =>
    intro r t hz
    simp only [shiftRemPre, hz, Bool.false_and, Bool.or_false]
    exact ih _ _ hz

/-- With an all-zero shift request and no decompression overshoot, the shift
protocol returns 0 having only reset the `inputDataOffset` table. -/
theorem shift_remainder_zero_noop (r : UdpReader) (shift : ℕ → ℤ) (hp : ℤ)
    (hz : ∀ p, shift p = 0) (hzstd : r.input.isZstd = false) :
    ∃ off, lofar_udp_shift_remainder_packets r shift hp =
      (0, { r with meta := { r.meta with inputDataOffset := off } }) := by
  have hsum : ((List.range r.meta.numPorts).map shift).sum = 0 := by
    apply List.sum_eq_zero
    intro x hx
    obtain ⟨a, -, rfl⟩ := List.mem_map.mp hx
    exact hz a
  obtain ⟨off, hoff⟩ :=
    shiftRemPre_offsets shift (List.range r.meta.numPorts) r 0 false
  have ht := shiftRemPre_total shift (List.range r.meta.numPorts) r 0 false
  have hf := shiftRemPre_fix_false shift (List.range r.meta.numPorts) r 0 hzstd
  refine ⟨off, ?_⟩
  unfold lofar_udp_shift_remainder_packets
  rw [if_pos ⟨by omega, hf⟩, hoff]

/-- If every port in the (duplicate-free) list has a nonnegative deficit not
exceeding the window and enough stream data to satisfy its read, the read
loop performs full reads on every port: the return value is passed through
and only the buffers and stream cursors change. -/
theorem readStepLoop_full_reads (L : List ℕ) :
    ∀ (rv : ℤ) (r : UdpReader), L.Nodup →
      (∀ p ∈ L, 0 ≤ r.meta.portLastDroppedPackets p ∧
        r.meta.portLastDroppedPackets p ≤ r.meta.packetsPerIteration ∧
        0 ≤ r.meta.portPacketLength p ∧
        (r.meta.packetsPerIteration - r.meta.portLastDroppedPackets p) *
          r.meta.portPacketLength p ≤
            r.input.streamLen p - r.input.streamPos p) →
      (readStepLoop L (rv, r)).1 = rv ∧
      ∃ dat pos, (readStepLoop L (rv, r)).2 =
        { r with meta := { r.meta with inputData := dat },
                 input := { r.input with streamPos := pos } } := by
  induction L with
  | nil =>
    intro rv r _ _
    exact ⟨rfl, r.meta.inputData, r.input.streamPos, rfl⟩
  | cons p rest ih =>
    intro rv r hnd h
    obtain ⟨hd0, hdle, hppl, havail⟩ := h p (List.mem_cons_self p rest)
    have hcharsle :
        (r.meta.packetsPerIteration - r.meta.portLastDroppedPackets p) *
          r.meta.portPacketLength p ≤
            r.input.streamLen p - r.input.streamPos p := havail
    have hchars0 :
        0 ≤ (r.meta.packetsPerIteration - r.meta.portLastDroppedPackets p) *
          r.meta.portPacketLength p := mul_nonneg (by omega) hppl
    have hstep : readStepPort p (rv, r) =
        (rv, (lofar_udp_io_read r p (r.meta.inputDataOffset p)
          ((r.meta.packetsPerIteration - r.meta.portLastDroppedPackets p) *
            r.meta.portPacketLength p)).2) := by
      unfold readStepPort
      dsimp only
      rw [if_neg (by omega)]
      have hgot : (lofar_udp_io_read r p (r.meta.inputDataOffset p)
          ((r.meta.packetsPerIteration - r.meta.portLastDroppedPackets p) *
            r.meta.portPacketLength p)).1 =
          (r.meta.packetsPerIteration - r.meta.portLastDroppedPackets p) *
            r.meta.portPacketLength p := by
        unfold lofar_udp_io_read
        simp only
        omega
      simp only [hgot]
      rw [if_neg (by omega)]
    simp only [readStepLoop, hstep]
    set r1 := (lofar_udp_io_read r p (r.meta.inputDataOffset p)
      ((r.meta.packetsPerIteration - r.meta.portLastDroppedPackets p) *
        r.meta.portPacketLength p)).2 with hr1
    have hrest : ∀ q ∈ rest, 0 ≤ r1.meta.portLastDroppedPackets q ∧
        r1.meta.portLastDroppedPackets q ≤ r1.meta.packetsPerIteration ∧
        0 ≤ r1.meta.portPacketLength q ∧
        (r1.meta.packetsPerIteration - r1.meta.portLastDroppedPackets q) *
          r1.meta.portPacketLength q ≤
            r1.input.streamLen q - r1.input.streamPos q := by
      intro q hq
      have hqne : q ≠ p := by
        rintro rfl
        exact (List.nodup_cons.mp hnd).1 hq
      have hq' := h q (List.mem_cons_of_mem p hq)
      have hpos : r1.input.streamPos q = r.input.streamPos q := by
        rw [hr1]
        unfold lofar_udp_io_read
        simp only [upd]
        rw [if_neg hqne]
      refine ⟨hq'.1, hq'.2.1, hq'.2.2.1, ?_⟩
      rw [hpos]
      exact hq'.2.2.2
    obtain ⟨hrv, dat, pos, hstate⟩ := ih rv r1 (List.nodup_cons.mp hnd).2 hrest
    refine ⟨hrv, dat, pos, ?_⟩
    rw [hstate]
    rfl

/-! ## Return-value lemmas for the shift protocol -/

theorem shiftRemPort_rv_cases (shift : ℕ → ℤ) (hp : ℤ) (fix : Bool) (q : ℕ)
    (acc : ℤ × UdpReader) :
    (shiftRemPort shift hp fix q acc).1 = acc.1 ∨
      (shiftRemPort shift hp fix q acc).1 = -1 := by
  simp only [shiftRemPort]
  split_ifs <;> first | (left; rfl) | (right; rfl)

theorem shiftRemPort_rv_keep (shift : ℕ → ℤ) (hp : ℤ) (fix : Bool) (q : ℕ)
    (acc : ℤ × UdpReader) (h : acc.1 = -1) :
    (shiftRemPort shift hp fix q acc).1 = -1 := by
  rcases shiftRemPort_rv_cases shift hp fix q acc with h' | h'
  · rw [h', h]
  · exact h'

set_option maxHeartbeats 800000 in
/-- With `handlePadding = 1`, a negative requested shift on a port makes its
shift step record the non-fatal warning value `-1`. -/
theorem shiftRemPort_rv_neg (shift : ℕ → ℤ) (fix : Bool) (p : ℕ)
    (acc : ℤ × UdpReader) (hsh : shift p < 0)
    (hcfg : 0 ≤ acc.2.packetsPerIteration) :
    (shiftRemPort shift 1 fix p acc).1 = -1 := by
  simp only [shiftRemPort]
  split_ifs <;> first | rfl | (exfalso; omega) | (exfalso; simp_all)

theorem shiftRemLoop_rv_cases (shift : ℕ → ℤ) (hp : ℤ) (fix : Bool)
    (L : List ℕ) : ∀ acc : ℤ × UdpReader,
    (shiftRemLoop shift hp fix L acc).1 = acc.1 ∨
      (shiftRemLoop shift hp fix L acc).1 = -1 := by
  induction L with
  | nil => intro acc; left; rfl
  | cons q rest ih =>
    intro acc
    rw [shiftRemLoop]
    rcases ih (shiftRemPort shift hp fix q acc) with h | h
    · rw [h]
      exact shiftRemPort_rv_cases shift hp fix q acc
    · right; exact h

theorem shiftRemLoop_rv_keep (shift : ℕ → ℤ) (hp : ℤ) (fix : Bool)
    (L : List ℕ) : ∀ acc : ℤ × UdpReader, acc.1 = -1 →
    (shiftRemLoop shift hp fix L acc).1 = -1 := by
  induction L with
  | nil => intro acc h; exact h
  | cons q rest ih =>
    intro acc h
    rw [shiftRemLoop]
    exact ih _ (shiftRemPort_rv_keep shift hp fix q acc h)

theorem shiftRemLoop_rv_neg (shift : ℕ → ℤ) (fix : Bool) (L : List ℕ)
    (p : ℕ) (hmem : p ∈ L) (hsh : shift p < 0) :
    ∀ acc : ℤ × UdpReader, 0 ≤ acc.2.packetsPerIteration →
    (shiftRemLoop shift 1 fix L acc).1 = -1 := by
  induction L with
  | nil => cases hmem
  | cons q rest ih =>
    intro acc hcfg
    rw [shiftRemLoop]
    rcases List.mem_cons.mp hmem with rfl | hmem'
    · exact shiftRemLoop_rv_keep shift 1 fix rest _
        (shiftRemPort_rv_neg shift fix p acc hsh hcfg)
    · refine ih hmem' _ ?_
      obtain ⟨⟨-, -, -, -, -, hcfgEq, -⟩, -⟩ := shiftRemPort_frame shift 1 fix q acc
      rw [hcfgEq]; exact hcfg

/-! ## Move-semantics lemmas for the shift protocol -/

theorem shiftPortNewBuffer_move (buf : Buffer) (ppl metaPpi ps hp bs i : ℤ)
    (hhp : hp = 0 ∨ hp = 1) (hppl : 0 ≤ ppl)
    (hlo : -1 * ppl * hp ≤ i) (hhi : i < -1 * ppl * hp + bs) :
    shiftPortNewBuffer buf ppl metaPpi ps hp replay bs i =
      buf (ppl * (metaPpi - ps - hp) + (i - -1 * ppl * hp)) := by
  simp only [shiftPortNewBuffer]
  by_cases hr : replay = false
  · rw [if_pos hr]
    simp only [zeroRegion]
    rw [if_neg (by rcases hhp with rfl | rfl <;> (rintro ⟨-, hz⟩; omega))]
    simp only [memmoveBuf]
    rw [if_pos ⟨hlo, hhi⟩]
  · rw [if_neg hr]
    simp only [memmoveBuf]
    rw [if_pos ⟨hlo, hhi⟩]

set_option maxHeartbeats 1600000 in
/-- With no compressed transport and a nonnegative requested shift on the
port, the port's shift step either leaves the buffer alone (shift 0 and no
padding) or rewrites it with the clamped shift and the exact
`(clamped + handlePadding)·portPacketLength` byte count. -/
theorem shiftRemPort_self_nonneg (shift : ℕ → ℤ) (hp : ℤ) (fix : Bool)
    (p : ℕ) (acc : ℤ × UdpReader)
    (hzstd : acc.2.input.isZstd = false) (hsh : 0 ≤ shift p)
    (hcfg : 0 ≤ acc.2.packetsPerIteration)
    (hentered :
      0 < (if shift p ≤ acc.2.packetsPerIteration then shift p
        else acc.2.packetsPerIteration) ∨ hp = 1) :
    (shiftRemPort shift hp fix p acc).2.meta.inputData p =
      shiftPortNewBuffer (acc.2.meta.inputData p)
        (acc.2.meta.portPacketLength p) acc.2.meta.packetsPerIteration
        (if shift p ≤ acc.2.packetsPerIteration then shift p
          else acc.2.packetsPerIteration) hp
        acc.2.meta.replayDroppedPackets
        (((if shift p ≤ acc.2.packetsPerIteration then shift p
          else acc.2.packetsPerIteration) + hp) *
            acc.2.meta.portPacketLength p) := by
  simp only [shiftRemPort]
  split_ifs
  all_goals try (dsimp only; rw [upd_self])
  all_goals try rfl
  all_goals try (exfalso; omega)
  all_goals simp_all

theorem shiftRemLoop_move_region (shift : ℕ → ℤ) (hp : ℤ) (fix : Bool)
    (L : List ℕ) (p : ℕ) (hmem : p ∈ L) (hnd : L.Nodup)
    (hhp : hp = 0 ∨ hp = 1) (hsh : 0 ≤ shift p) :
    ∀ (acc : ℤ × UdpReader) (i : ℤ),
      acc.2.input.isZstd = false →
      0 ≤ acc.2.packetsPerIteration →
      0 ≤ acc.2.meta.portPacketLength p →
      -1 * acc.2.meta.portPacketLength p * hp ≤ i →
      i < -1 * acc.2.meta.portPacketLength p * hp +
        ((if shift p ≤ acc.2.packetsPerIteration then shift p
          else acc.2.packetsPerIteration) + hp) *
            acc.2.meta.portPacketLength p →
      (shiftRemLoop shift hp fix L acc).2.meta.inputData p i =
        acc.2.meta.inputData p
          (acc.2.meta.portPacketLength p *
            (acc.2.meta.packetsPerIteration -
              (if shift p ≤ acc.2.packetsPerIteration then shift p
                else acc.2.packetsPerIteration) - hp) +
            (i - -1 * acc.2.meta.portPacketLength p * hp)) := by
  induction L with
  | nil => cases hmem
  | cons q rest ih =>
    intro acc i hzstd hcfg hppl hlo hhi
    rcases List.mem_cons.mp hmem with rfl | hmem'
    · rw [shiftRemLoop,
        shiftRemLoop_outside shift hp fix rest (List.nodup_cons.mp hnd).1 _]
      have hclamped : 0 ≤ (if shift p ≤ acc.2.packetsPerIteration then shift p
          else acc.2.packetsPerIteration) := by
        split_ifs <;> omega
      by_cases hent :
          0 < (if shift p ≤ acc.2.packetsPerIteration then shift p
            else acc.2.packetsPerIteration) ∨ hp = 1
      · rw [shiftRemPort_self_nonneg shift hp fix p acc hzstd hsh hcfg hent]
        exact shiftPortNewBuffer_move _ _ _ _ _ _ i hhp hppl hlo hhi
      · exfalso
        rcases hhp with rfl | rfl
        · have h1 : (if shift p ≤ acc.2.packetsPerIteration then shift p
              else acc.2.packetsPerIteration) = 0 := by omega
          rw [h1] at hhi
          simp at hhi
          omega
        · exact hent (Or.inr rfl)
    · rw [shiftRemLoop]
      obtain ⟨⟨-, hpplEq, -, -, -, hcfgEq, hzstdEq, -, -⟩, hppiEq, -, -, -, -, -⟩ :=
        shiftRemPort_frame shift hp fix q acc
      have hbq : p ≠ q := by
        rintro rfl
        exact (List.nodup_cons.mp hnd).1 hmem'
      have hbuf := shiftRemPort_other shift hp fix q acc hbq
      rw [ih hmem' (List.nodup_cons.mp hnd).2 (shiftRemPort shift hp fix q acc) i
        (by rw [hzstdEq]; exact hzstd)
        (by rw [hcfgEq]; exact hcfg)
        (by rw [hpplEq]; exact hppl)
        (by rw [hpplEq]; exact hlo)
        (by rw [hpplEq, hcfgEq]; exact hhi), hbuf, hpplEq, hcfgEq, hppiEq]

/-! ## `packetsRead` frame lemmas for the skip / alignment machinery -/

/-- The reader carried by a scan-phase result (`error` payload or `ok`
payload). -/
def scanOutReader : Except (ℤ × UdpReader) (UdpReader × ℤ) → UdpReader
  | Except.error e => e.2
  | Except.ok o => o.1

/-- The reader carried by an align-phase result. -/
def alignOutReader : Except (ℤ × UdpReader) (ℤ × UdpReader) → UdpReader
  | Except.error e => e.2
  | Except.ok o => o.2

theorem io_read_packetsRead (r : UdpReader) (port : ℕ) (destOff nchars : ℤ) :
    (lofar_udp_io_read r port destOff nchars).2.meta.packetsRead =
      r.meta.packetsRead := rfl

theorem readStepPort_packetsRead (p : ℕ) (acc : ℤ × UdpReader) :
    (readStepPort p acc).2.meta.packetsRead = acc.2.meta.packetsRead := by
  simp only [readStepPort]
  split_ifs <;> rfl

theorem readStepLoop_packetsRead (L : List ℕ) :
    ∀ acc : ℤ × UdpReader,
      (readStepLoop L acc).2.meta.packetsRead = acc.2.meta.packetsRead := by
  induction L with
  | nil => intro acc; rfl
  | cons p rest ih =>
    intro acc
    simp only [readStepLoop]
    rw [ih, readStepPort_packetsRead]

theorem shift_remainder_packetsRead (r : UdpReader) (shift : ℕ → ℤ)
    (hp : ℤ) :
    (lofar_udp_shift_remainder_packets r shift hp).2.meta.packetsRead =
      r.meta.packetsRead := by
  obtain ⟨off, hoff⟩ :=
    shiftRemPre_offsets shift (List.range r.meta.numPorts) r 0 false
  simp only [lofar_udp_shift_remainder_packets]
  split_ifs with h
  · rw [hoff]
  · have h2 := (shiftRemLoop_frame shift hp
      (shiftRemPre shift (List.range r.meta.numPorts) r 0 false).2.1
      (List.range (shiftRemPre shift
        (List.range r.meta.numPorts) r 0 false).2.2.meta.numPorts)
      (0, (shiftRemPre shift
        (List.range r.meta.numPorts) r 0 false).2.2)).1.2.2.1
    rw [h2, hoff]

theorem read_step_packetsRead (r : UdpReader) :
    (lofar_udp_reader_read_step r).2.meta.packetsRead =
      r.meta.packetsRead := by
  simp only [lofar_udp_reader_read_step]
  split_ifs <;>
    simp only [readStepLoop_packetsRead, shift_remainder_packetsRead] <;> rfl

theorem scanInner_packetsRead (cur lastOff : ℤ) (L : List ℕ) :
    ∀ (r : UdpReader) (rv : ℤ),
      (scanInner cur lastOff L r rv).1.meta.packetsRead =
        r.meta.packetsRead := by
  induction L with
  | nil => intro r rv; rfl
  | cons q rest ih =>
    intro r rv
    simp only [scanInner]
    rw [ih]

theorem scanLoop_packetsRead (p : ℕ) (lastOff : ℤ) :
    ∀ (fuel : ℕ) (r : UdpReader) (rv cur : ℤ)
      (out : Except (ℤ × UdpReader) (UdpReader × ℤ)),
      scanLoop p lastOff fuel r rv cur = some out →
      (scanOutReader out).meta.packetsRead = r.meta.packetsRead := by
  intro fuel
  induction fuel with
  | zero =>
    intro r rv cur out h
    simp only [scanLoop] at h
    split_ifs at h
    all_goals first
      | exact Option.noConfusion h
      | (injection h with h'
         subst h')
    all_goals rfl
  | succ fuel ih =>
    intro r rv cur out h
    simp only [scanLoop] at h
    split_ifs at h with hc hres
    · injection h with h'
      subst h'
      exact read_step_packetsRead r
    · rw [ih _ _ _ _ h, scanInner_packetsRead, read_step_packetsRead]
    · injection h with h'
      subst h'
      rfl

theorem portScanLoop_packetsRead (fuel : ℕ) (L : List ℕ) :
    ∀ (r : UdpReader) (rv : ℤ)
      (out : Except (ℤ × UdpReader) (UdpReader × ℤ)),
      portScanLoop fuel L r rv = some out →
      (scanOutReader out).meta.packetsRead = r.meta.packetsRead := by
  induction L with
  | nil =>
    intro r rv out h
    injection h with h'
    rw [← h']
    rfl
  | cons p rest ih =>
    intro r rv out h
    simp only [portScanLoop] at h
    split at h
    · exact Option.noConfusion h
    · rename_i e heq
      injection h with h'
      subst h'
      exact scanLoop_packetsRead p _ fuel r rv _ _ heq
    · rename_i r1 rv1 heq
      have h1 := scanLoop_packetsRead p _ fuel r rv _ _ heq
      split_ifs at h with hg
      · injection h with h'
        subst h'
        exact h1
      · rw [ih r1 rv1 out h]
        exact h1

theorem searchLoop_packetsRead (p : ℕ) :
    ∀ (fuel : ℕ) (r : UdpReader) (a b c d : ℤ)
      (out : Except (ℤ × UdpReader) (UdpReader × ℤ)),
      searchLoop p fuel r a b c d = some out →
      (scanOutReader out).meta.packetsRead = r.meta.packetsRead := by
  intro fuel
  induction fuel with
  | zero =>
    intro r a b c d out h
    simp only [searchLoop] at h
    split_ifs at h
    all_goals first
      | exact Option.noConfusion h
      | (injection h with h'
         subst h')
    all_goals rfl
  | succ fuel ih =>
    intro r a b c d out h
    simp only [searchLoop] at h
    split_ifs at h
    all_goals first
      | exact Option.noConfusion h
      | (injection h with h'
         subst h')
      | rw [ih _ _ _ _ _ _ h]
    all_goals rfl

theorem deficitLoop_packetsRead (L : List ℕ) :
    ∀ r : UdpReader,
      (deficitLoop L r).meta.packetsRead = r.meta.packetsRead := by
  induction L with
  | nil => intro r; rfl
  | cons p rest ih =>
    intro r
    simp only [deficitLoop]
    rw [ih]

theorem alignLoop_packetsRead (fuel : ℕ) (L : List ℕ) :
    ∀ (r : UdpReader) (rv : ℤ)
      (out : Except (ℤ × UdpReader) (ℤ × UdpReader)),
      alignLoop fuel L r rv = some out →
      (alignOutReader out).meta.packetsRead = r.meta.packetsRead := by
  induction L with
  | nil =>
    intro r rv out h
    injection h with h'
    rw [← h']
    rfl
  | cons p rest ih =>
    intro r rv out h
    simp only [alignLoop] at h
    split at h
    · exact Option.noConfusion h
    · rename_i e heq
      injection h with h'
      subst h'
      show e.2.meta.packetsRead = r.meta.packetsRead
      split_ifs at heq
      all_goals first
        | exact Except.noConfusion (Option.some.inj heq)
        | (split at heq
           · exact Option.noConfusion heq
           · rename_i e' heq2
             have he := Except.error.inj (Option.some.inj heq)
             rw [he] at heq2
             exact searchLoop_packetsRead p _ _ _ _ _ _ _ heq2
           · rename_i o heq2
             exact Except.noConfusion (Option.some.inj heq))
    · rename_i r1 shiftAmount heq
      have hr1 : r1.meta.packetsRead = r.meta.packetsRead := by
        split_ifs at heq
        all_goals first
          | (have he := Except.ok.inj (Option.some.inj heq)
             injection he with he1 he2
             rw [← he1])
          | (split at heq
             · exact Option.noConfusion heq
             · exact Except.noConfusion (Option.some.inj heq)
             · rename_i r1' n1 heq2
               have he := Except.ok.inj (Option.some.inj heq)
               injection he with he1 he2
               rw [← he1]
               exact searchLoop_packetsRead p _ _ _ _ _ _ _ heq2)
      split_ifs at h with hs1 hn hshort
      · injection h with h'
        rw [← h']
        show (lofar_udp_shift_remainder_packets r1 _ 0).2.meta.packetsRead =
          r.meta.packetsRead
        rw [shift_remainder_packetsRead]
        exact hr1
      · injection h with h'
        rw [← h']
        show (lofar_udp_io_read _ p _ _).2.meta.packetsRead =
          r.meta.packetsRead
        rw [io_read_packetsRead, shift_remainder_packetsRead]
        exact hr1
      · rw [ih _ _ _ h, io_read_packetsRead, shift_remainder_packetsRead]
        exact hr1
      · rw [ih _ _ _ h, shift_remainder_packetsRead]
        exact hr1

theorem skip_to_packet_packetsRead (fuel : ℕ) (r : UdpReader) (rv : ℤ)
    (r2 : UdpReader)
    (h : lofar_udp_skip_to_packet fuel r = some (rv, r2)) :
    r2.meta.packetsRead = r.meta.packetsRead := by
  simp only [lofar_udp_skip_to_packet] at h
  split_ifs at h with hc
  · have he := Option.some.inj h
    injection he with he1 he2
    rw [← he2]
  · split at h
    · exact Option.noConfusion h
    · rename_i e heq
      have he := Option.some.inj h
      have he2 : r2 = e.2 := by rw [he]
      rw [he2]
      have h2 := portScanLoop_packetsRead fuel _ _ _ _ heq
      rw [show e.2.meta.packetsRead =
        (deficitLoop (List.range r.meta.numPorts) r).meta.packetsRead from h2,
        deficitLoop_packetsRead]
    · rename_i r2' rv2 heq
      split at h
      · exact Option.noConfusion h
      · rename_i e heq2
        have he := Option.some.inj h
        have he2 : r2 = e.2 := by rw [he]
        rw [he2]
        have h1 := alignLoop_packetsRead fuel _ _ _ _ heq2
        have h2 := portScanLoop_packetsRead fuel _ _ _ _ heq
        rw [show e.2.meta.packetsRead = r2'.meta.packetsRead from h1,
          show r2'.meta.packetsRead =
            (deficitLoop (List.range r.meta.numPorts) r).meta.packetsRead
            from h2,
          deficitLoop_packetsRead]
      · rename_i rv3 r3 heq2
        have he := Option.some.inj h
        injection he with he1 he2
        rw [← he2]
        have h1 := alignLoop_packetsRead fuel _ _ _ _ heq2
        have h2 := portScanLoop_packetsRead fuel _ _ _ _ heq
        rw [show r3.meta.packetsRead = r2'.meta.packetsRead from h1,
          show r2'.meta.packetsRead =
            (deficitLoop (List.range r.meta.numPorts) r).meta.packetsRead
            from h2,
          deficitLoop_packetsRead]

/-! ## Lemmas on the reuse reset and the first-packet alignment -/

theorem gfpaPre_packetsRead (L : List ℕ) :
    ∀ r : UdpReader,
      (gfpaPre L r).meta.packetsRead = r.meta.packetsRead := by
  induction L with
  | nil => intro r; rfl
  | cons p rest ih =>
    intro r
    simp only [gfpaPre]
    rw [ih]
    split_ifs <;> rfl

theorem gfpaPre_lastPacket_of_le (L : List ℕ) :
    ∀ r : UdpReader,
      (∀ p ∈ L,
        lofar_get_packet_number (r.meta.inputData p) 0 ≤ r.meta.lastPacket) →
      (gfpaPre L r).meta.lastPacket = r.meta.lastPacket := by
  induction L with
  | nil => intro r _; rfl
  | cons p rest ih =>
    intro r hb
    simp only [gfpaPre]
    split_ifs with hc
    · exact absurd hc (not_lt.mpr (hb p (List.mem_cons_self p rest)))
    · exact ih _ (fun q hq => hb q (List.mem_cons_of_mem p hq))

theorem reuseResetPorts_packetsRead (L : List ℕ) :
    ∀ m : UdpMeta, (reuseResetPorts L m).packetsRead = m.packetsRead := by
  induction L with
  | nil => intro m; rfl
  | cons p rest ih =>
    intro m
    simp only [reuseResetPorts]
    rw [ih]

theorem reuseResetPorts_lastPacket (L : List ℕ) :
    ∀ m : UdpMeta, (reuseResetPorts L m).lastPacket = m.lastPacket := by
  induction L with
  | nil => intro m; rfl
  | cons p rest ih =>
    intro m
    simp only [reuseResetPorts]
    rw [ih]

/-- The reset at the top of `lofar_udp_file_reader_reuse` zeroes the packet
counter. -/
theorem reuseReset_packetsRead (r : UdpReader) (t : ℤ) :
    (reuseReset r t).meta.packetsRead = 0 := by
  simp only [reuseReset]
  rw [show ({ reuseResetPorts _ _ with
    inputDataReady := 0 } : UdpMeta).packetsRead =
      (reuseResetPorts _ _).packetsRead from rfl,
    reuseResetPorts_packetsRead]

/-- The reset at the top of `lofar_udp_file_reader_reuse` retargets
`lastPacket` to the requested starting packet. -/
theorem reuseReset_lastPacket (r : UdpReader) (t : ℤ) :
    (reuseReset r t).meta.lastPacket = t := by
  simp only [reuseReset]
  rw [show ({ reuseResetPorts _ _ with
    inputDataReady := 0 } : UdpMeta).lastPacket =
      (reuseResetPorts _ _).lastPacket from rfl,
    reuseResetPorts_lastPacket]

/-- Whatever the first (conditional) skip pass does, the reader it hands to
the alignment phase has `packetsRead = 0`. -/
theorem reuseAlignPhase_packetsRead (fuel : ℕ) (r : UdpReader) (t rv1 : ℤ)
    (r1 : UdpReader) (h : reuseAlignPhase fuel r t = some (rv1, r1)) :
    r1.meta.packetsRead = 0 := by
  simp only [reuseAlignPhase] at h
  split_ifs at h with hl
  · rw [skip_to_packet_packetsRead fuel _ rv1 r1 h, reuseReset_packetsRead]
  · have he := Option.some.inj h
    injection he with he1 he2
    rw [← he2, reuseReset_packetsRead]

/-- `lofar_udp_get_first_packet_alignment` is the inner skip pass followed
by the `lastPacket -= 1` adjustment. -/
theorem gfpa_eq_of_skip (fuel : ℕ) (r : UdpReader) (rvS : ℤ)
    (rS : UdpReader)
    (hS : lofar_udp_skip_to_packet fuel
        (gfpaPre (List.range r.meta.numPorts) r) = some (rvS, rS)) :
    lofar_udp_get_first_packet_alignment fuel r =
      some (rvS, { rS with meta :=
        { rS.meta with lastPacket := rS.meta.lastPacket - 1 } }) := by
  simp only [lofar_udp_get_first_packet_alignment]
  rw [hS]

/-! ## Claim C1 -/

set_option maxHeartbeats 800000 in
/-- C1: whenever `lofar_udp_file_reader_reuse` runs to completion without a
fatal error — its first (conditional) skip pass returns a tolerable code
with the search converged on the requested starting packet, no port's first
packet is past the target, and the skip pass inside the first-packet
alignment also returns a tolerable code without the degenerate
target-widening — the resulting session state satisfies `packetsRead = 0`,
`lastPacket = startingPacket - 1`, and `packetsReadMax` equal to the
requested maximum, or `LONG_MAX` when that maximum is negative; the state
is also flagged ready to read (`inputDataReady = 1`,
`outputDataReady = 0`). -/
theorem reuse_postconditions (fuel : ℕ) (r : UdpReader)
    (target maxp rv1 rvS : ℤ) (r1 rS : UdpReader)
    (h1 : reuseAlignPhase fuel r target = some (rv1, r1))
    (hrv1 : ¬rv1 > 0)
    (hconv1 : r1.meta.lastPacket = target)
    (hfirst : ∀ p ∈ List.range r1.meta.numPorts,
      lofar_get_packet_number (r1.meta.inputData p) 0 ≤ target)
    (hS : lofar_udp_skip_to_packet fuel
        (gfpaPre (List.range r1.meta.numPorts) r1) = some (rvS, rS))
    (hrvS : ¬rvS > 0)
    (hconv2 : rS.meta.lastPacket =
      (gfpaPre (List.range r1.meta.numPorts) r1).meta.lastPacket) :
    ∃ r2 : UdpReader,
      lofar_udp_file_reader_reuse fuel r target maxp = some (rvS, r2) ∧
      r2.meta.packetsRead = 0 ∧
      r2.meta.lastPacket = target - 1 ∧
      r2.meta.packetsReadMax = (if maxp < 0 then LONG_MAX else maxp) ∧
      r2.meta.inputDataReady = 1 ∧ r2.meta.outputDataReady = 0 := by
  have hg := gfpa_eq_of_skip fuel r1 rvS rS hS
  have hpr : rS.meta.packetsRead = 0 := by
    rw [skip_to_packet_packetsRead fuel _ rvS rS hS, gfpaPre_packetsRead,
      reuseAlignPhase_packetsRead fuel r target rv1 r1 h1]
  have hlp : rS.meta.lastPacket = target := by
    rw [hconv2, gfpaPre_lastPacket_of_le _ _
      (fun p hp => by rw [hconv1]; exact hfirst p hp), hconv1]
  refine ⟨{ rS with meta := { rS.meta with
      lastPacket := rS.meta.lastPacket - 1,
      packetsReadMax := if maxp < 0 then LONG_MAX else maxp,
      inputDataReady := 1, outputDataReady := 0 } }, ?_, ?_, ?_, rfl, rfl, rfl⟩
  · simp only [lofar_udp_file_reader_reuse, h1, hg]
    rw [if_neg hrv1, if_neg hrvS]
  · show rS.meta.packetsRead = 0
    exact hpr
  · show rS.meta.lastPacket - 1 = target - 1
    rw [hlp]

/-- Synthetic single-port capture for the reuse witness: two 16-byte
packets, sequence counters 16 and 32 on the 160 MHz clock, so packet
numbers 1 and 2 at offsets 0 and 16. -/
def c1Buf : Buffer := fun i => if i = 12 then 16 else if i = 28 then 32 else 0

def c1Meta : UdpMeta :=
  { baseMeta with portPacketLength := fun _ => 16,
                  inputData := fun _ => c1Buf }

def c1Reader : UdpReader := { baseReader with meta := c1Meta }

/-- Witness for C1: reusing the synthetic single-port reader at starting
packet 2 with a negative requested maximum leaves `packetsRead = 0`,
`lastPacket = 1` and `packetsReadMax = LONG_MAX`. -/
theorem reuse_postconditions_witness :
    ∃ r2 : UdpReader,
      lofar_udp_file_reader_reuse 4 c1Reader 2 (-5) = some (0, r2) ∧
      r2.meta.packetsRead = 0 ∧
      r2.meta.lastPacket = 2 - 1 ∧
      r2.meta.packetsReadMax = (if (-5 : ℤ) < 0 then LONG_MAX else (-5)) ∧
      r2.meta.inputDataReady = 1 ∧ r2.meta.outputDataReady = 0 :=
  reuse_postconditions 4 c1Reader 2 (-5) 0 0 (reuseReset c1Reader 2)
    (((lofar_udp_skip_to_packet 4
      (gfpaPre (List.range (reuseReset c1Reader 2).meta.numPorts)
        (reuseReset c1Reader 2))).getD (0, baseReader)).2)
    rfl (by decide) (by decide) (by decide) rfl (by decide) (by decide)

/-! ## Claim C3 -/

def c3Buf : Buffer := fun i => i

def c3Meta : UdpMeta :=
  { baseMeta with inputData := fun _ => c3Buf }

def c3Reader : UdpReader :=
  { baseReader with meta := c3Meta }

/-- C3 counterexample: with an all-zero shift request and `handlePadding = 1`
(no compressed transport), the claimed `(shift + padding)·portPacketLength`
byte move does not happen.  The early return for `totalShift < 1` fires, so
the destination byte at `-portPacketLength` keeps its old value `-1` instead
of receiving the source byte at
`(packetsPerIteration - 0 - 1)·portPacketLength`, whose value is `1`; the
call still returns 0. -/
theorem shift_remainder_padding_copy_skipped :
    (lofar_udp_shift_remainder_packets c3Reader (fun _ => 0) 1).1 = 0 ∧
    (lofar_udp_shift_remainder_packets c3Reader
        (fun _ => 0) 1).2.meta.inputData 0 (-1) = -1 ∧
    c3Reader.meta.inputData 0
      (c3Reader.meta.portPacketLength 0 *
        (c3Reader.meta.packetsPerIteration - 0 - 1)) = 1 := by
  refine ⟨?_, ?_, ?_⟩ <;> decide

/-- C3 (amended): when the shift protocol actually performs work (positive
total requested shift or a pending decompression overshoot; otherwise it
returns 0 before touching any buffer), on an uncompressed transport, for a
port `p` with nonnegative requested shift the whole destination region
`[-handlePadding·portPacketLength, -handlePadding·portPacketLength +
(clampedShift + handlePadding)·portPacketLength)` of its buffer is the
overlap-safe copy of the source region starting at
`(packetsPerIteration - clampedShift - handlePadding)·portPacketLength`,
where `clampedShift` caps the request at the configured
`packetsPerIteration`; a negative requested shift yields the non-fatal
warning return `-1`, but only when `handlePadding = 1` (with
`handlePadding = 0` the port's block is skipped entirely); and the return
value is always `0` or `-1`, never a failure code. -/
theorem shift_remainder_move_semantics (r : UdpReader) (shift : ℕ → ℤ)
    (hp : ℤ) (p : ℕ) (hhp : hp = 0 ∨ hp = 1) (hport : p < r.meta.numPorts)
    (hwork : shiftPerformsWork r shift) (hzstd : r.input.isZstd = false)
    (hcfg : 0 ≤ r.packetsPerIteration)
    (hppl : 0 ≤ r.meta.portPacketLength p) :
    (0 ≤ shift p → ∀ i : ℤ,
      -1 * r.meta.portPacketLength p * hp ≤ i →
      i < -1 * r.meta.portPacketLength p * hp +
        ((if shift p ≤ r.packetsPerIteration then shift p
          else r.packetsPerIteration) + hp) * r.meta.portPacketLength p →
      (lofar_udp_shift_remainder_packets r shift hp).2.meta.inputData p i =
        r.meta.inputData p
          (r.meta.portPacketLength p *
            (r.meta.packetsPerIteration -
              (if shift p ≤ r.packetsPerIteration then shift p
                else r.packetsPerIteration) - hp) +
            (i - -1 * r.meta.portPacketLength p * hp))) ∧
    (hp = 1 → shift p < 0 →
      (lofar_udp_shift_remainder_packets r shift hp).1 = -1) ∧
    ((lofar_udp_shift_remainder_packets r shift hp).1 = 0 ∨
      (lofar_udp_shift_remainder_packets r shift hp).1 = -1) := by
  have hw : ¬((shiftRemPre shift (List.range r.meta.numPorts) r 0 false).1 < 1 ∧
      (shiftRemPre shift (List.range r.meta.numPorts) r 0 false).2.1 = false) :=
    hwork
  have hf := shiftRemPre_fix_false shift (List.range r.meta.numPorts) r 0 hzstd
  obtain ⟨off, hoff⟩ :=
    shiftRemPre_offsets shift (List.range r.meta.numPorts) r 0 false
  simp only [lofar_udp_shift_remainder_packets]
  rw [if_neg hw, hf, hoff]
  refine ⟨?_, ?_, ?_⟩
  · intro hsh i hlo hhi
    exact shiftRemLoop_move_region shift hp false (List.range r.meta.numPorts)
      p (List.mem_range.mpr hport) (List.nodup_range _) hhp hsh
      (0, { r with meta := { r.meta with inputDataOffset := off } }) i
      hzstd hcfg hppl hlo hhi
  · intro hp1 hneg
    subst hp1
    exact shiftRemLoop_rv_neg shift false (List.range r.meta.numPorts) p
      (List.mem_range.mpr hport) hneg
      (0, { r with meta := { r.meta with inputDataOffset := off } }) hcfg
  · rcases shiftRemLoop_rv_cases shift hp false (List.range r.meta.numPorts)
      (0, { r with meta := { r.meta with inputDataOffset := off } }) with h | h
    · left; exact h
    · right; exact h

/-- Witness for C3: one port, `portPacketLength = 1`,
`packetsPerIteration = 2`, buffer holding the identity pattern, requested
shift 1 with `handlePadding = 1`: the destination byte at `-1` receives the
source byte at offset `1·(2 - 1 - 1) + 0 = 0`. -/
theorem shift_remainder_move_semantics_witness :
    (lofar_udp_shift_remainder_packets c3Reader
        (fun _ => 1) 1).2.meta.inputData 0 (-1) =
      c3Reader.meta.inputData 0
        (c3Reader.meta.portPacketLength 0 *
          (c3Reader.meta.packetsPerIteration -
            (if (fun _ => (1 : ℤ)) 0 ≤ c3Reader.packetsPerIteration
              then (fun _ => (1 : ℤ)) 0
              else c3Reader.packetsPerIteration) - 1) +
          ((-1) - -1 * c3Reader.meta.portPacketLength 0 * 1)) :=
  (shift_remainder_move_semantics c3Reader (fun _ => 1) 1 0 (Or.inr rfl)
    (by decide) (by decide) rfl (by decide) (by decide)).1 (by decide) (-1)
    (by decide) (by decide)

/-! ## Claim C6 -/

def c6Buf : Buffer := fun i => if i = -2 then 7 else 0

def c6Meta : UdpMeta :=
  { baseMeta with replayDroppedPackets := false, inputData := fun _ => c6Buf }

def c6Reader : UdpReader := { baseReader with meta := c6Meta }

/-- C6 counterexample: `lofar_udp_shift_remainder_packets` runs with
replay-on-loss disabled (here with `handlePadding = 1`, exactly the
read-step call), yet the guard byte at offset `-2·portPacketLength` keeps
its old nonzero value, because the all-zero shift request makes the function
return before any zeroing (`totalShift < 1` early exit). -/
theorem shift_remainder_guard_not_zeroed :
    ((lofar_udp_shift_remainder_packets c6Reader (fun _ => 0) 1).2.meta.inputData
      0) (-2) = 7 ∧
    c6Reader.meta.replayDroppedPackets = false ∧
    c6Reader.meta.portPacketLength 0 = 1 := by decide

/-- C6 (amended): when `lofar_udp_shift_remainder_packets` runs with
`handlePadding = 1` (as in every read step), has work to perform (a positive
total shift or a pending decompression overshoot — otherwise it returns
immediately without touching the buffers), and replay-on-loss is disabled,
the one-packet region `[-2·portPacketLength, -portPacketLength)` of every
port is set to all zeros; with replay-on-loss enabled the shift never writes
below `-portPacketLength`, so that guard region is left unchanged. -/
theorem shift_remainder_guard_region :
    (∀ (r : UdpReader) (shift : ℕ → ℤ) (p : ℕ) (i : ℤ),
      p < r.meta.numPorts →
      r.meta.replayDroppedPackets = false →
      shiftPerformsWork r shift →
      -2 * r.meta.portPacketLength p ≤ i →
      i < -2 * r.meta.portPacketLength p + r.meta.portPacketLength p →
      (lofar_udp_shift_remainder_packets r shift 1).2.meta.inputData p i = 0) ∧
    (∀ (r : UdpReader) (shift : ℕ → ℤ) (hp : ℤ) (p : ℕ) (i : ℤ),
      hp = 0 ∨ hp = 1 →
      r.meta.replayDroppedPackets = true →
      0 ≤ r.meta.portPacketLength p →
      i < -(r.meta.portPacketLength p) →
      (lofar_udp_shift_remainder_packets r shift hp).2.meta.inputData p i =
        r.meta.inputData p i) := by
  constructor
  · intro r shift p i hport hrep hwork hlo hhi
    simp only [lofar_udp_shift_remainder_packets]
    rw [if_neg hwork]
    obtain ⟨off, hoff⟩ :=
      shiftRemPre_offsets shift (List.range r.meta.numPorts) r 0 false
    rw [hoff]
    exact shiftRemLoop_zeroes_guard shift _ _ p
      (List.mem_range.mpr hport) (List.nodup_range _) _ i hrep hlo hhi
  · intro r shift hp p i hhp hrep hppl hi
    simp only [lofar_udp_shift_remainder_packets]
    obtain ⟨off, hoff⟩ :=
      shiftRemPre_offsets shift (List.range r.meta.numPorts) r 0 false
    by_cases hearly :
      (shiftRemPre shift (List.range r.meta.numPorts) r 0 false).1 < 1 ∧
        (shiftRemPre shift (List.range r.meta.numPorts) r 0 false).2.1 = false
    · rw [if_pos hearly, hoff]
    · rw [if_neg hearly, hoff]
      exact shiftRemLoop_low_untouched shift hp _ _ p hhp _ i hrep hppl hi

def c6WorkReader : UdpReader :=
  { baseReader with
    meta := { baseMeta with replayDroppedPackets := false } }

theorem shift_remainder_guard_region_witness :
    (lofar_udp_shift_remainder_packets c6WorkReader (fun _ => 1)
      1).2.meta.inputData 0 (-2) = 0 ∧
    (lofar_udp_shift_remainder_packets baseReader (fun _ => 1)
      1).2.meta.inputData 0 (-2) = baseReader.meta.inputData 0 (-2) :=
  ⟨shift_remainder_guard_region.1 c6WorkReader (fun _ => 1) 0 (-2) (by decide)
      rfl (by decide) (by decide) (by decide),
    shift_remainder_guard_region.2 baseReader (fun _ => 1) 1 0 (-2)
      (Or.inr rfl) rfl (by decide) (by decide)⟩

/-! ## Claim C2 -/

/-- C2 counterexample: a reader entering `lofar_udp_reader_read_step` with
`packetsRead + packetsPerIteration` exactly *equal* to `packetsReadMax`
(2 + 2 = 4, not strictly greater) still gets the `-2` packet-cap flag,
because the source tests `packetsRead >= packetsReadMax -
packetsPerIteration`. -/
def c2Reader : UdpReader :=
  { baseReader with
    meta := { baseMeta with packetsRead := 2, packetsReadMax := 4 } }

theorem read_step_cap_at_equality :
    (lofar_udp_reader_read_step c2Reader).1 = -2 ∧
      ¬(c2Reader.meta.packetsRead + c2Reader.meta.packetsPerIteration >
        c2Reader.meta.packetsReadMax) := by decide

/-- C2 (amended): in `lofar_udp_reader_read_step` (here entered with a
nonempty window, no pending deficits, no compression overshoot, and enough
input on every port so that no short read interferes), the window is lowered
to the remaining budget `packetsReadMax - packetsRead` and the tolerable
result `packet_cap_reached` (-2) is flagged exactly when
`packetsRead + packetsPerIteration >= packetsReadMax` (greater *or equal*,
not strictly greater as claimed); otherwise `packetsPerIteration` stays at
the configured value and the step returns 0. -/
theorem read_step_cap_threshold (r : UdpReader)
    (h0 : r.meta.packetsPerIteration ≠ 0)
    (hdrop : ∀ p, r.meta.portLastDroppedPackets p = 0)
    (hzstd : r.input.isZstd = false)
    (hppl : ∀ p, 0 ≤ r.meta.portPacketLength p)
    (hbound : r.meta.packetsRead ≤ r.meta.packetsReadMax)
    (hcfg : 0 ≤ r.packetsPerIteration)
    (havail : ∀ p, r.packetsPerIteration * r.meta.portPacketLength p ≤
      r.input.streamLen p - r.input.streamPos p) :
    ((lofar_udp_reader_read_step r).1 = -2 ↔
      r.meta.packetsRead + r.packetsPerIteration ≥ r.meta.packetsReadMax) ∧
    (lofar_udp_reader_read_step r).2.meta.packetsPerIteration =
      (if r.meta.packetsRead + r.packetsPerIteration ≥ r.meta.packetsReadMax
        then r.meta.packetsReadMax - r.meta.packetsRead
        else r.packetsPerIteration) := by
  simp only [lofar_udp_reader_read_step]
  rw [if_neg h0]
  rcases hsres : lofar_udp_shift_remainder_packets (readStepReset r)
    (readStepReset r).meta.portLastDroppedPackets 1 with ⟨sv, S2⟩
  obtain ⟨off, hoff⟩ := shift_remainder_zero_noop (readStepReset r)
    (readStepReset r).meta.portLastDroppedPackets 1 (fun p => hdrop p) hzstd
  rw [hsres] at hoff
  injection hoff with hsv hS2
  dsimp only
  rw [if_neg (by omega)]
  have hS2read : S2.meta.packetsRead = r.meta.packetsRead := by rw [hS2]; rfl
  have hS2max : S2.meta.packetsReadMax = r.meta.packetsReadMax := by
    rw [hS2]; rfl
  have hS2ppi : S2.meta.packetsPerIteration = r.packetsPerIteration := by
    rw [hS2]; rfl
  have hS2drop : ∀ p, S2.meta.portLastDroppedPackets p = 0 := by
    intro p; rw [hS2]; exact hdrop p
  have hS2ppl : ∀ p, S2.meta.portPacketLength p = r.meta.portPacketLength p :=
    by intro p; rw [hS2]; rfl
  have hS2len : ∀ p, S2.input.streamLen p = r.input.streamLen p := by
    intro p; rw [hS2]; rfl
  have hS2pos : ∀ p, S2.input.streamPos p = r.input.streamPos p := by
    intro p; rw [hS2]; rfl
  by_cases hcap : S2.meta.packetsRead ≥ S2.meta.packetsReadMax -
    S2.meta.packetsPerIteration
  · simp only [if_pos hcap]
    obtain ⟨hrv, dat, pos, hstate⟩ := readStepLoop_full_reads
      (List.range ({ S2 with meta := { S2.meta with packetsPerIteration :=
        S2.meta.packetsReadMax - S2.meta.packetsRead } } :
          UdpReader).meta.numPorts) (-2)
      { S2 with meta := { S2.meta with packetsPerIteration :=
        S2.meta.packetsReadMax - S2.meta.packetsRead } }
      (List.nodup_range _)
      (by
        intro p hp
        dsimp only
        refine ⟨by rw [hS2drop p], ?_, ?_, ?_⟩
        · rw [hS2drop p, hS2read, hS2max]; omega
        · rw [hS2ppl p]; exact hppl p
        · rw [hS2drop p, hS2ppl p, hS2len p, hS2pos p, hS2read, hS2max]
          have hle : r.meta.packetsReadMax - r.meta.packetsRead - 0 ≤
              r.packetsPerIteration := by
            rw [hS2read, hS2max, hS2ppi] at hcap; omega
          calc (r.meta.packetsReadMax - r.meta.packetsRead - 0) *
                r.meta.portPacketLength p
              ≤ r.packetsPerIteration * r.meta.portPacketLength p :=
                mul_le_mul_of_nonneg_right hle (hppl p)
            _ ≤ r.input.streamLen p - r.input.streamPos p := havail p)
    rw [hrv, hstate]
    rw [hS2read, hS2max, hS2ppi] at hcap
    constructor
    · constructor
      · intro _; omega
      · intro _; rfl
    · rw [if_pos (by omega)]
      dsimp only
      rw [hS2read, hS2max]
  · simp only [if_neg hcap]
    obtain ⟨hrv, dat, pos, hstate⟩ := readStepLoop_full_reads
      (List.range S2.meta.numPorts) 0 S2 (List.nodup_range _)
      (by
        intro p hp
        refine ⟨by rw [hS2drop p], ?_, ?_, ?_⟩
        · rw [hS2drop p, hS2ppi]; exact hcfg
        · rw [hS2ppl p]; exact hppl p
        · rw [hS2drop p, hS2ppl p, hS2len p, hS2pos p, hS2ppi]
          calc (r.packetsPerIteration - 0) * r.meta.portPacketLength p
              = r.packetsPerIteration * r.meta.portPacketLength p := by ring_nf
            _ ≤ r.input.streamLen p - r.input.streamPos p := havail p)
    rw [hrv, hstate]
    rw [hS2read, hS2max, hS2ppi] at hcap
    constructor
    · constructor
      · intro habs; exact absurd habs (by norm_num)
      · intro hge; exfalso; omega
    · rw [if_neg (by omega), hS2ppi]

def c2GoodReader : UdpReader :=
  { baseReader with
    meta := { baseMeta with packetsRead := 0, packetsReadMax := 100 } }

theorem read_step_cap_threshold_witness :
    ((lofar_udp_reader_read_step c2GoodReader).1 = -2 ↔
      c2GoodReader.meta.packetsRead + c2GoodReader.packetsPerIteration ≥
        c2GoodReader.meta.packetsReadMax) ∧
    (lofar_udp_reader_read_step c2GoodReader).2.meta.packetsPerIteration =
      (if c2GoodReader.meta.packetsRead + c2GoodReader.packetsPerIteration ≥
          c2GoodReader.meta.packetsReadMax
        then c2GoodReader.meta.packetsReadMax - c2GoodReader.meta.packetsRead
        else c2GoodReader.packetsPerIteration) :=
  read_step_cap_threshold c2GoodReader (by decide) (fun _ => rfl) rfl
    (fun _ => (show (0 : ℤ) ≤ 1 by norm_num)) (by decide) (by decide)
    (fun _ => (show (2 : ℤ) * 1 ≤ 1000 - 0 by norm_num))

/-! ## Claim C5 -/

/-- The closed set of processing-mode IDs enumerated by the spec's mode
table. -/
def enumeratedModes : List ℤ :=
  [0, 1, 2, 10, 11, 20, 21, 30, 31, 32,
   100, 101, 102, 103, 104, 110, 111, 112, 113, 114,
   120, 121, 122, 123, 124, 130, 131, 132, 133, 134,
   150, 151, 152, 153, 154, 160, 161, 162, 163, 164]

/-- The non-equal-I/O output-size base of `lofar_udp_setup_processing`
(its `workingData` before the output-bit-mode and `mulFactor` scaling):
`numPorts·(hdrOffset+16) + totalProcBeamlets·pols·bytesPerInputSample·
timeslicesPerPacket` with `hdrOffset = -16`. -/
def procWorkingBase (meta : ProcMeta) : ℤ :=
  (meta.numPorts : ℤ) * (-UDPHDRLEN + UDPHDRLEN) +
    (meta.totalProcBeamlets * UDPNPOL * meta.inputBitMode *
      UDPNTIMESLICE).tdiv 8

/-- For the decimated-Stokes modes, the second switch of
`lofar_udp_setup_processing` selects one output, scale `1/2^((m % 10)+2)`
and 32-bit output. -/
theorem modeSelection_decimated (m outBit0 inBit : ℤ)
    (h : (101 ≤ m ∧ m ≤ 104) ∨ (111 ≤ m ∧ m ≤ 114) ∨
      (121 ≤ m ∧ m ≤ 124) ∨ (131 ≤ m ∧ m ≤ 134)) :
    modeSelection m outBit0 inBit =
      some (1, (1, 2 ^ ((m % 10) + 2).toNat), 32, -UDPHDRLEN, false) := by
  unfold modeSelection
  split_ifs <;> first | rfl | omega

/-- C5: every decimated-Stokes mode ID in 101..104, 111..114, 121..124,
131..134 selects exactly 1 output with `outputBitMode = 32`, and the packet
output length is the non-equal-I/O size formula scaled by
`1/2^((mode mod 10) + 2)`; every mode ID outside the enumerated closed set
is rejected by `lofar_udp_setup_processing`. -/
theorem setup_processing_decimated_modes :
    (∀ meta : ProcMeta,
      ((101 ≤ meta.processingMode ∧ meta.processingMode ≤ 104) ∨
        (111 ≤ meta.processingMode ∧ meta.processingMode ≤ 114) ∨
        (121 ≤ meta.processingMode ∧ meta.processingMode ≤ 124) ∨
        (131 ≤ meta.processingMode ∧ meta.processingMode ≤ 134)) →
      ∃ meta', lofar_udp_setup_processing meta = some meta' ∧
        meta'.numOutputs = 1 ∧ meta'.outputBitMode = 32 ∧
        meta'.packetOutputLength 0 =
          (procWorkingBase meta * 32).tdiv
            (meta.inputBitMode *
              2 ^ ((meta.processingMode % 10 + 2).toNat))) ∧
    (∀ meta : ProcMeta, meta.processingMode ∉ enumeratedModes →
      lofar_udp_setup_processing meta = none) := by
  constructor
  · intro meta h
    have hv : validProcessingMode meta.processingMode := by
      unfold validProcessingMode; omega
    have h01 : ¬((0 ≤ meta.processingMode ∧ meta.processingMode ≤ 1) ∧
        meta.calibrateData = true) := by rintro ⟨⟨h1, h2⟩, -⟩; omega
    have hm01 : ¬(meta.processingMode = 0 ∨ meta.processingMode = 1) := by
      omega
    unfold lofar_udp_setup_processing
    rw [if_neg (not_not_intro hv)]
    simp only [modeSelection_decimated _ _ _ h, if_neg h01, if_neg hm01,
      ite_self, Bool.false_eq_true, if_false]
    refine ⟨_, rfl, rfl, rfl, ?_⟩
    have hr : List.range (Int.toNat 1) = [0] := rfl
    simp [hr, outputLenLoop, upd, procWorkingBase, Int.tdiv_one]
  · intro meta h
    unfold lofar_udp_setup_processing
    rw [if_pos]
    intro hv
    refine h ?_
    unfold validProcessingMode at hv
    simp only [enumeratedModes, List.mem_cons, List.not_mem_nil, or_false]
    omega

def c5Meta : ProcMeta where
  processingMode := 102
  calibrateData := false
  inputBitMode := 8
  outputBitMode := 8
  numPorts := 1
  totalProcBeamlets := 122
  portPacketLength := fun _ => 7824
  numOutputs := 0
  packetOutputLength := fun _ => 0

def c5MetaBad : ProcMeta := { c5Meta with processingMode := 99 }

theorem setup_processing_decimated_modes_witness :
    (∃ meta', lofar_udp_setup_processing c5Meta = some meta' ∧
      meta'.numOutputs = 1 ∧ meta'.outputBitMode = 32 ∧
      meta'.packetOutputLength 0 =
        (procWorkingBase c5Meta * 32).tdiv
          (c5Meta.inputBitMode *
            2 ^ ((c5Meta.processingMode % 10 + 2).toNat))) ∧
      lofar_udp_setup_processing c5MetaBad = none :=
  ⟨setup_processing_decimated_modes.1 c5Meta (Or.inl (by decide)),
    setup_processing_decimated_modes.2 c5MetaBad (by decide)⟩

/-- C8: with two ports whose computed `portPacketLength` values differ
(7824 vs 3920 bytes here), `lofar_udp_parse_headers` succeeds — but emits
*no* mixed-packet-length warning, because the source guards the comparison
with `port > 1` instead of `port > 0`, so the pair (0, 1) is never compared.
This contradicts the claim (and the spec sentence) that every differing
consecutive pair yields a warning. -/
theorem parse_headers_mixed_lengths_silent :
    (lofar_udp_parse_headers 2 c8Hdr 0 0).isSome = true ∧
      (lofar_udp_parse_headers 2 c8Hdr 0 0).map
        (fun pm => (pm.portPacketLength 0, pm.portPacketLength 1,
          pm.mixedLengthWarnings)) = some (7824, 3920, []) := by decide

/-! ## Claim C9 -/

set_option maxHeartbeats 800000 in
/-- When the calibration oracle never reports a negative step count (the
source's `lofar_udp_reader_calibration` returns only 0 or 1), the timed step
either returns the minimum of its two phase return values, or exits early
with a fatal positive code from one of the phases. -/
theorem step_timed_min_or_fatal (r : UdpReader)
    (calib : UdpReader → ℤ × UdpReader) (kernel : UdpMeta → ℤ × UdpMeta)
    (hcal : ∀ s, 0 ≤ (calib s).1) :
    (lofar_udp_reader_step_timed r calib kernel).ret =
      min (lofar_udp_reader_step_timed r calib kernel).readRet
        (lofar_udp_reader_step_timed r calib kernel).procRet ∨
    0 < (lofar_udp_reader_step_timed r calib kernel).ret := by
  have hc1 : 0 ≤ (if r.meta.calibrateData = true ∧
      r.meta.calibrationStep ≥ r.calibrationStepsGenerated then calib r
    else ((1 : ℤ), r)).1 := by
    split_ifs
    · exact hcal r
    · norm_num
  simp only [lofar_udp_reader_step_timed]
  rw [if_neg (by rintro ⟨-, -, h⟩; omega)]
  split
  · rename_i rv r1 heq
    right
    show (0 : ℤ) < rv
    split_ifs at heq
    all_goals first
      | exact Except.noConfusion heq
      | (injection heq with heq'
         injection heq' with hA hB
         omega)
  · rename_i readRet r1 heq
    split
    · rename_i rv r2 heq2
      right
      show (0 : ℤ) < rv
      split_ifs at heq2
      all_goals first
        | exact Except.noConfusion heq2
        | (injection heq2 with heq'
           injection heq' with hA hB
           omega)
    · rename_i procRet r2 heq2
      left
      show (if readRet < procRet then readRet else procRet) =
        min readRet procRet
      split_ifs <;> omega

/-- C9: every call of `lofar_udp_reader_step_timed` whose result is not a
fatal positive code returns exactly the minimum of the read-phase and
processing-phase return values (provided the calibration oracle returns
nonnegative codes, as the source's calibration does), so a tolerable
negative result from either phase reaches the caller. -/
theorem step_timed_returns_min (r : UdpReader)
    (calib : UdpReader → ℤ × UdpReader) (kernel : UdpMeta → ℤ × UdpMeta)
    (hcal : ∀ s, 0 ≤ (calib s).1)
    (hret : (lofar_udp_reader_step_timed r calib kernel).ret ≤ 0) :
    (lofar_udp_reader_step_timed r calib kernel).ret =
      min (lofar_udp_reader_step_timed r calib kernel).readRet
        (lofar_udp_reader_step_timed r calib kernel).procRet := by
  rcases step_timed_min_or_fatal r calib kernel hcal with h | h
  · exact h
  · omega

/-- Witness for C9: the base reader with trivial calibration and processing
oracles steps with both phase results 0 and returns their minimum. -/
theorem step_timed_returns_min_witness :
    (∀ s : UdpReader, 0 ≤ ((fun t : UdpReader => ((0 : ℤ), t)) s).1) ∧
    (lofar_udp_reader_step_timed baseReader
        (fun t : UdpReader => ((0 : ℤ), t))
        (fun m : UdpMeta => ((0 : ℤ), m))).ret =
      min (lofar_udp_reader_step_timed baseReader
          (fun t : UdpReader => ((0 : ℤ), t))
          (fun m : UdpMeta => ((0 : ℤ), m))).readRet
        (lofar_udp_reader_step_timed baseReader
          (fun t : UdpReader => ((0 : ℤ), t))
          (fun m : UdpMeta => ((0 : ℤ), m))).procRet :=
  ⟨fun _ => le_refl 0,
    step_timed_returns_min baseReader
      (fun t : UdpReader => ((0 : ℤ), t)) (fun m : UdpMeta => ((0 : ℤ), m))
      (fun _ => le_refl 0) (by decide)⟩

end UdpPM
